import Mathlib

/-!
Verification of the gesture-recognition and gesture-control core of the
interactive-brain application.

The development shallowly embeds the JavaScript source:

* `GestureRecognizer` (src/js/tracking/GestureRecognizer.js): geometry
  primitives, twist-pose scoring with hysteresis, the angle-delta filter
  chain, the swipe detector, and the 5-entry majority-vote stabilizer.
  Real-valued quantities are modelled over `ℝ` (the code uses `Math.sqrt`,
  `Math.atan2` and `Math.PI`).
* `GestureControls` (the twist-pose controller) and the `BrainModel`
  action surface it drives.  All of the controller's constants are decimal
  literals, so this part is modelled over `ℚ` and is fully executable.

Time stamps (`Date.now()` milliseconds) are modelled as `ℤ` and passed in
as the frame timestamp.
-/

namespace IBrain

/-- Gesture labels emitted by the recognizer (JS strings). -/
inductive Gesture
  | none
  | pinch
  | fist
  | point
  | open_palm
  | twist_pose
  | spread
  | squeeze
  | swipe_left
  | swipe_right
deriving DecidableEq, Fintype

/-- Direction of a detected swipe. -/
inductive SwipeDir
  | left
  | right
deriving DecidableEq, Fintype

/-- `clamp(value, min, max) = Math.max(min, Math.min(max, value))`. -/
def clamp {α : Type} [LinearOrder α] (value lo hi : α) : α :=
  max lo (min hi value)

theorem clamp_le {α : Type} [LinearOrder α] (value lo hi : α) (h : lo ≤ hi) :
    lo ≤ clamp value lo hi ∧ clamp value lo hi ≤ hi := by
  unfold clamp
  constructor
  · exact le_max_left _ _
  · exact max_le h (min_le_left _ _)

/-! ## Stability buffer (GestureRecognizer._stabilize) -/

/-- `STABILITY_BUFFER_SIZE = 5`. -/
def stabilityBufferSize : ℕ := 5

/-- `Math.ceil(STABILITY_BUFFER_SIZE * 0.6) = ceil(3.0) = 3`: the 60%
consensus threshold. -/
def consensusThreshold : ℕ := 3

/-- The `highPriority` gesture list of `_stabilize` (line 421). -/
def highPriorityGestures : List Gesture :=
  [Gesture.pinch, Gesture.fist, Gesture.spread, Gesture.squeeze,
   Gesture.swipe_left, Gesture.swipe_right]

/-- Push a raw label into the buffer and trim it to the buffer size
(`push`, then `shift` if the length exceeds `STABILITY_BUFFER_SIZE`). -/
def pushTrim (buf : List Gesture) (raw : Gesture) : List Gesture :=
  let b := buf ++ [raw]
  if b.length > stabilityBufferSize then b.drop 1 else b

/-- Keys of the `counts` object in first-occurrence order, as produced by
`Object.entries` on an object populated by a left-to-right loop. -/
def keysIn (buf : List Gesture) : List Gesture :=
  buf.foldl (fun ks g => if g ∈ ks then ks else ks ++ [g]) []

/-- The most common gesture in the buffer and its count: the fold starting at
`('none', 0)` that takes a key only when its count strictly exceeds the
running best (ties keep the earlier key). -/
def bestOf (buf : List Gesture) : Gesture × ℕ :=
  (keysIn buf).foldl
    (fun best g => if buf.count g > best.2 then (g, buf.count g) else best)
    (Gesture.none, 0)

/-- State owned by `_stabilize`: the vote buffer and the last stable label. -/
structure StabState where
  buffer : List Gesture
  lastStable : Gesture
deriving DecidableEq

/-- One call of `_stabilize(rawGesture, output)`: returns the stable gesture
written into the output together with the updated buffer state.
`twistActive` is the recognizer's `_twistPoseActive` flag at call time. -/
def stabilizeStep (twistActive : Bool) (raw : Gesture) (s : StabState) :
    Gesture × StabState :=
  let buf := pushTrim s.buffer raw
  let best := bestOf buf
  -- `bestCount >= threshold` picks the winner, otherwise the previous stable
  -- gesture is kept (`this._lastStableGesture || 'none'`; the stored label is
  -- never the empty string, so the `|| 'none'` fallback is the identity here).
  let g1 := if best.2 ≥ consensusThreshold then best.1 else s.lastStable
  -- swipe labels bypass the vote
  let g2 := if raw = Gesture.swipe_left ∨ raw = Gesture.swipe_right then raw else g1
  -- active twist pose overrides anything that is not high-priority
  let g3 := if twistActive ∧ raw ∉ highPriorityGestures then Gesture.twist_pose else g2
  (g3, ⟨buf, g3⟩)

/-- Feed a list of raw labels through `_stabilize`, collecting the stable
outputs (the twist flag is held fixed across the run). -/
def runStabilize (twistActive : Bool) : StabState → List Gesture → List Gesture × StabState
  | s, [] => ([], s)
  | s, raw :: rest =>
    let r := stabilizeStep twistActive raw s
    let rs := runStabilize twistActive r.2 rest
    (r.1 :: rs.1, rs.2)

/-- Buffer contents after feeding a list of raw labels (push+trim per frame). -/
def bufferAfter (buf : List Gesture) (raws : List Gesture) : List Gesture :=
  raws.foldl pushTrim buf

/-! ## Swipe detector (GestureRecognizer._detectSwipe)

The detector is purely rational arithmetic over the palm-position history, so
it is stated polymorphically over a linear ordered field; the full recognizer
instantiates it at `ℝ` and the executable witnesses at `ℚ`. -/

/-- One entry of `_palmHistory`: `{ x, y, time }`. -/
structure PalmEntry (α : Type) where
  x : α
  y : α
  time : ℤ
deriving DecidableEq

/-- `_detectSwipe()`, called with the current time and the detector's state
(`_lastSwipeTime` and `_palmHistory`).  Returns the optional swipe event and
the updated `(lastSwipeTime, palmHistory)` pair. -/
def detectSwipe {α : Type} [LinearOrderedField α]
    (now : ℤ) (lastSwipeTime : ℤ) (palmHistory : List (PalmEntry α)) :
    Option SwipeDir × ℤ × List (PalmEntry α) :=
  if now - lastSwipeTime < 700 then (Option.none, lastSwipeTime, palmHistory)
  else if palmHistory.length < 5 then (Option.none, lastSwipeTime, palmHistory)
  else
    let cutoff := now - 250
    let recent := palmHistory.filter (fun p => decide (p.time ≥ cutoff))
    if recent.length < 4 then (Option.none, lastSwipeTime, palmHistory)
    else
      -- `recent[0]` and `recent[recent.length - 1]`; the guard above makes
      -- `recent` nonempty, so the defaults are never consulted
      let first := recent.headD (PalmEntry.mk 0 0 0)
      let last := recent.getLastD (PalmEntry.mk 0 0 0)
      let dx := last.x - first.x
      let dy := last.y - first.y
      let dt := last.time - first.time
      if dt < 50 then (Option.none, lastSwipeTime, palmHistory)
      else
        let velocityX := dx / ((dt : α) / 1000)
        if |velocityX| > 0.8 ∧ |dy| < |dx| * 0.5 then
          (some (if dx > 0 then SwipeDir.right else SwipeDir.left), now, [])
        else (Option.none, lastSwipeTime, palmHistory)

/-- Detector state: `_palmHistory` and `_lastSwipeTime`. -/
structure SwipeState (α : Type) where
  palmHistory : List (PalmEntry α)
  lastSwipeTime : ℤ
deriving DecidableEq

/-- One recognizer frame as seen by the swipe subsystem: the palm centroid is
pushed into the history (trimmed to 20 entries), then `_detectSwipe` runs. -/
def swipeFrameStep {α : Type} [LinearOrderedField α]
    (st : SwipeState α) (now : ℤ) (px py : α) :
    Option SwipeDir × SwipeState α :=
  let hist1 := st.palmHistory ++ [⟨px, py, now⟩]
  let hist2 := if hist1.length > 20 then hist1.drop 1 else hist1
  let r := detectSwipe now st.lastSwipeTime hist2
  (r.1, ⟨r.2.2, r.2.1⟩)

/-- Run the swipe subsystem over a list of frames `(time, x, y)`, collecting
the per-frame detection results. -/
def runSwipe {α : Type} [LinearOrderedField α] :
    SwipeState α → List (ℤ × α × α) → List (Option SwipeDir) × SwipeState α
  | st, [] => ([], st)
  | st, (t, px, py) :: rest =>
    let r := swipeFrameStep st t px py
    let rs := runSwipe r.2 rest
    (r.1 :: rs.1, rs.2)

/-! ## Geometry primitives (GestureRecognizer.js, top of file)

These operate on MediaPipe landmarks with real coordinates; `Math.sqrt`,
`Math.atan2` and `Math.PI` are modelled by their real counterparts. -/

/-- A 3D landmark point `{x, y, z}`. -/
structure P3 where
  x : ℝ
  y : ℝ
  z : ℝ

/-- A hand: 21 landmarks in the fixed MediaPipe anatomical order. -/
def Hand : Type := Fin 21 → P3

def WRIST : Fin 21 := 0
def THUMB_CMC : Fin 21 := 1
def THUMB_MCP : Fin 21 := 2
def THUMB_IP : Fin 21 := 3
def THUMB_TIP : Fin 21 := 4
def INDEX_MCP : Fin 21 := 5
def INDEX_PIP : Fin 21 := 6
def INDEX_TIP : Fin 21 := 8
def MIDDLE_MCP : Fin 21 := 9
def MIDDLE_PIP : Fin 21 := 10
def MIDDLE_TIP : Fin 21 := 12
def RING_MCP : Fin 21 := 13
def RING_PIP : Fin 21 := 14
def RING_TIP : Fin 21 := 16
def PINKY_MCP : Fin 21 := 17
def PINKY_PIP : Fin 21 := 18
def PINKY_TIP : Fin 21 := 20

/-- 3D Euclidean distance `dist(a, b)`. -/
noncomputable def dist (a b : P3) : ℝ :=
  Real.sqrt ((a.x - b.x) ^ 2 + (a.y - b.y) ^ 2 + (a.z - b.z) ^ 2)

/-- 2D Euclidean distance `dist2D(a, b)` on `{x, y}` pairs. -/
noncomputable def dist2D (a b : ℝ × ℝ) : ℝ :=
  Real.sqrt ((a.1 - b.1) ^ 2 + (a.2 - b.2) ^ 2)

/-- `wrapAngleDelta(delta)`: subtract `2π` if the value exceeds `π`, then add
`2π` if the (possibly updated) value is below `−π`. -/
noncomputable def wrapAngleDelta (delta : ℝ) : ℝ :=
  let d := delta
  let d := if d > Real.pi then d - 2 * Real.pi else d
  if d < -Real.pi then d + 2 * Real.pi else d

/-- `Math.atan2(y, x)`, with values in `(−π, π]`, as the complex argument. -/
noncomputable def atan2 (y x : ℝ) : ℝ := Complex.arg ⟨x, y⟩

/-- `median(values)`: sort, then middle element, averaging the two middle
elements for even lengths; `0` on the empty list. -/
def median {α : Type} [LinearOrderedField α] (values : List α) : α :=
  match values with
  | [] => 0
  | _ :: _ =>
    let sorted := List.insertionSort (· ≤ ·) values
    let mid := sorted.length / 2
    if sorted.length % 2 = 0 then (sorted.getD (mid - 1) 0 + sorted.getD mid 0) / 2
    else sorted.getD mid 0

/-- `stdDev(values)`: population standard deviation; `0` for lists of length
at most one. -/
noncomputable def stdDev (values : List ℝ) : ℝ :=
  if values.length ≤ 1 then 0
  else
    let avg := values.sum / (values.length : ℝ)
    let variance := (values.map (fun v => (v - avg) ^ 2)).sum / (values.length : ℝ)
    Real.sqrt variance

/-- `getPalmSize(lm)`: wrist to middle-MCP distance; the JS `|| 0.001`
replaces a zero (falsy) distance by `0.001`. -/
noncomputable def getPalmSize (lm : Hand) : ℝ :=
  let d := dist (lm WRIST) (lm MIDDLE_MCP)
  if d = 0 then 0.001 else d

/-- `getFingerCurl(lm, pipIdx, tipIdx)`: curl amount in `[0, 1]` from the
tip-to-wrist vs pip-to-wrist distance ratio. -/
noncomputable def getFingerCurl (lm : Hand) (pipIdx tipIdx : Fin 21) : ℝ :=
  let tipToWrist := dist (lm tipIdx) (lm WRIST)
  let pipToWrist := dist (lm pipIdx) (lm WRIST)
  if pipToWrist < 0.001 then 0
  else max 0 (min 1 ((1.15 - tipToWrist / pipToWrist) / 0.5))

/-- The 3-point palm centroid used by `isThumbExtended`. -/
noncomputable def palmCenter (lm : Hand) : P3 :=
  ⟨((lm WRIST).x + (lm INDEX_MCP).x + (lm PINKY_MCP).x) / 3,
   ((lm WRIST).y + (lm INDEX_MCP).y + (lm PINKY_MCP).y) / 3,
   ((lm WRIST).z + (lm INDEX_MCP).z + (lm PINKY_MCP).z) / 3⟩

/-- `isThumbExtended(lm)`: thumb tip farther than `1.3×` the CMC distance
from the palm centroid. -/
noncomputable def isThumbExtended (lm : Hand) : Bool :=
  let tipDist := dist (lm THUMB_TIP) (palmCenter lm)
  let cmcDist := dist (lm THUMB_CMC) (palmCenter lm)
  decide (tipDist > cmcDist * 1.3)

/-! ## Twist-pose scoring and hysteresis (recognize, lines 225–247) -/

/-- The continuous twist-pose score: weighted sum of thumb readiness, index
readiness, curl of the other three fingers, and a close-pinch bonus, clamped
to `[0, 1]`. -/
noncomputable def twistScore (lm : Hand) : ℝ :=
  let palmSize := getPalmSize lm
  let indexCurl := getFingerCurl lm INDEX_PIP INDEX_TIP
  let middleCurl := getFingerCurl lm MIDDLE_PIP MIDDLE_TIP
  let ringCurl := getFingerCurl lm RING_PIP RING_TIP
  let pinkyCurl := getFingerCurl lm PINKY_PIP PINKY_TIP
  let thumbExt := isThumbExtended lm
  let pinchDist := dist (lm THUMB_TIP) (lm INDEX_TIP) / palmSize
  let curledOthersScore := (middleCurl + ringCurl + pinkyCurl) / 3
  let thumbReady := thumbExt = true ∨ pinchDist < 0.72
  let indexReady := indexCurl < 0.4 ∨ indexCurl < 0.55
  clamp ((if thumbReady then (0.34 : ℝ) else 0) +
         (if indexReady then (0.34 : ℝ) else 0) +
         curledOthersScore * 0.18 +
         (if pinchDist < 0.55 then (0.18 : ℝ) else 0)) 0 1

/-- `_twistPoseEnterThreshold = 0.58`. -/
noncomputable def twistPoseEnterThreshold : ℝ := 0.58

/-- `_twistPoseExitThreshold = 0.42`. -/
noncomputable def twistPoseExitThreshold : ℝ := 0.42

/-- The hysteresis update of `_twistPoseActive` (lines 242–246): enter when
inactive and the score reaches the enter threshold, exit when active and the
score drops below the exit threshold, otherwise keep the flag. -/
noncomputable def twistPoseStep (active : Bool) (score : ℝ) : Bool :=
  if active = false ∧ score ≥ twistPoseEnterThreshold then true
  else if active = true ∧ score < twistPoseExitThreshold then false
  else active

/-! ## Recognizer state and output -/

/-- `_twoHandSmoothing = 0.3` (EMA factor). -/
noncomputable def twoHandSmoothing : ℝ := 0.3

/-- The mutable fields of `GestureRecognizer`. -/
structure RecState where
  gestureBuffer : List Gesture
  palmHistory : List (PalmEntry ℝ)
  lastSwipeTime : ℤ
  smoothTwoHandDist : Option ℝ
  prevHandAngle : Option ℝ
  angleDeltaHistory : List ℝ
  filteredHandAngleDelta : ℝ
  prevPinchAxisAngle : Option ℝ
  filteredPinchAxisDelta : ℝ
  twistPoseActive : Bool
  lastStableGesture : Gesture

/-- The recognizer state as built by the constructor. -/
noncomputable def initRecState : RecState :=
  { gestureBuffer := []
    palmHistory := []
    lastSwipeTime := 0
    smoothTwoHandDist := Option.none
    prevHandAngle := Option.none
    angleDeltaHistory := []
    filteredHandAngleDelta := 0
    prevPinchAxisAngle := Option.none
    filteredPinchAxisDelta := 0
    twistPoseActive := false
    lastStableGesture := Gesture.none }

/-- The `GestureSample` produced once per frame (the `output` object). -/
structure Output where
  gesture : Gesture
  confidence : ℝ
  handPosition : Option (ℝ × ℝ)
  palmDelta : Option (ℝ × ℝ)
  handAngle : ℝ
  handAngleDelta : ℝ
  rawHandAngleDelta : ℝ
  twistPoseScore : ℝ
  twistPoseActive : Bool
  handsDetected : ℕ
  twoHandDistance : Option ℝ
  twoHandDelta : ℝ
  fingerCurls : Option (ℝ × ℝ × ℝ × ℝ × Bool)

/-- The output object as initialized at the top of `recognize`. -/
noncomputable def output0 : Output :=
  { gesture := Gesture.none
    confidence := 0
    handPosition := Option.none
    palmDelta := Option.none
    handAngle := 0
    handAngleDelta := 0
    rawHandAngleDelta := 0
    twistPoseScore := 0
    twistPoseActive := false
    handsDetected := 0
    twoHandDistance := Option.none
    twoHandDelta := 0
    fingerCurls := Option.none }

/-- The hand-loss reset (recognize, lines 169–180): clear every history
buffer and the twist-pose flag.  `_lastSwipeTime` and `_lastStableGesture`
are not touched. -/
def resetState (s : RecState) : RecState :=
  { s with
    palmHistory := []
    smoothTwoHandDist := Option.none
    gestureBuffer := []
    prevHandAngle := Option.none
    angleDeltaHistory := []
    filteredHandAngleDelta := 0
    prevPinchAxisAngle := Option.none
    filteredPinchAxisDelta := 0
    twistPoseActive := false }

/-- Apply `_stabilize` to the chosen raw gesture and write the stable label
into the output (the final statement of every non-reset `recognize` path). -/
def stabilizeFinish (st : RecState) (twistActive : Bool) (raw : Gesture)
    (out : Output) : Output × RecState :=
  let r := stabilizeStep twistActive raw ⟨st.gestureBuffer, st.lastStableGesture⟩
  ({ out with gesture := r.1 },
   { st with gestureBuffer := r.2.buffer, lastStableGesture := r.2.lastStable })

/-- The single-hand priority chain (recognize, lines 337–367): pinch, fist,
twist pose, point, open palm, otherwise `none`; returns the raw gesture and
the confidence assigned in that branch. -/
noncomputable def classifySingle (twistActive : Bool) (score pinchDist middleCurl : ℝ)
    (indexExtended middleExtended ringExtended pinkyExtended : Bool)
    (extendedCount : ℕ) : Gesture × ℝ :=
  if pinchDist < 0.35 ∧ middleCurl > 0.3 then
    (Gesture.pinch, max 0 (1 - pinchDist / 0.35))
  else if extendedCount ≤ 1 ∧ indexExtended = false ∧ middleExtended = false ∧
      ringExtended = false then
    (Gesture.fist, 1 - (extendedCount : ℝ) / 5)
  else if twistActive = true then
    (Gesture.twist_pose, score)
  else if indexExtended = true ∧ middleExtended = false ∧ ringExtended = false ∧
      pinkyExtended = false then
    (Gesture.point, 0.9)
  else if 3 ≤ extendedCount then
    (Gesture.open_palm, (extendedCount : ℝ) / 5)
  else (Gesture.none, 0)

/-- Tail of the single-hand path: classification, swipe override
(confidence `0.85`), then stabilization. -/
noncomputable def finishSingle (st : RecState) (now : ℤ) (out : Output)
    (twistActive : Bool) (score pinchDist middleCurl : ℝ)
    (iE mE rE pE : Bool) (extCount : ℕ) : Output × RecState :=
  let c := classifySingle twistActive score pinchDist middleCurl iE mE rE pE extCount
  let sw := detectSwipe now st.lastSwipeTime st.palmHistory
  let rg : Gesture × ℝ :=
    match sw.1 with
    | some SwipeDir.left => (Gesture.swipe_left, 0.85)
    | some SwipeDir.right => (Gesture.swipe_right, 0.85)
    | Option.none => c
  let st2 := { st with lastSwipeTime := sw.2.1, palmHistory := sw.2.2 }
  stabilizeFinish st2 twistActive rg.1 { out with confidence := rg.2 }

/-- The `if (hadPrevHandAngle)` filter block (recognize, lines 276–308):
independent smoothing of the pinch axis, pinch-distance blending of the two
axes, the 7-entry history with median/σ outlier rejection, the adaptive
deadzone and the final low-pass filter.  Returns
`(rawHandAngleDelta, handAngleDelta output, filtered pinch-axis delta,
angle-delta history, filtered hand-angle delta)`. -/
noncomputable def angleFilter (s : RecState)
    (pinchDist palmAxisDelta pinchAxisDelta : ℝ) : ℝ × ℝ × ℝ × List ℝ × ℝ :=
  if s.prevHandAngle.isSome = true then
    let fp := s.filteredPinchAxisDelta + (pinchAxisDelta - s.filteredPinchAxisDelta) * 0.35
    let pinchBlend := clamp ((0.75 - pinchDist) / 0.35) 0 1
    let rawDelta := palmAxisDelta * (1 - pinchBlend) + fp * pinchBlend
    let hist1 := s.angleDeltaHistory ++ [rawDelta]
    let hist := if hist1.length > 7 then hist1.drop 1 else hist1
    let med := median hist
    let sigma := stdDev hist
    let outlierLimit := max 0.08 (sigma * 3.0)
    let rawDelta2 := if |rawDelta - med| > outlierLimit then med else rawDelta
    let adaptiveDeadzone := (0.002 : ℝ) + min 0.02 (sigma * 1.6)
    let cleanedDelta := if |rawDelta2| > adaptiveDeadzone then rawDelta2 else 0
    let fh := s.filteredHandAngleDelta + (cleanedDelta - s.filteredHandAngleDelta) * 0.34
    (rawDelta, fh, fp, hist, fh)
  else (0, 0, s.filteredPinchAxisDelta, s.angleDeltaHistory, s.filteredHandAngleDelta)

/-- The with-hands body of `recognize` (lines 182–377): feature extraction,
hysteresis, dual-axis angle filtering, two-hand check, classification, swipe
and stabilization, threading every state update of the source. -/
noncomputable def recognizeHands (s : RecState) (now : ℤ) (lm : Hand)
    (rest : List Hand) : Output × RecState :=
  let palmSize := getPalmSize lm
  let palmX := ((lm WRIST).x + (lm INDEX_MCP).x + (lm PINKY_MCP).x) / 3
  let palmY := ((lm WRIST).y + (lm INDEX_MCP).y + (lm PINKY_MCP).y) / 3
  let palmDelta : Option (ℝ × ℝ) :=
    match s.palmHistory.getLast? with
    | Option.none => Option.none
    | some prev =>
      let dt := now - prev.time
      if 0 < dt ∧ dt < 200 then some (palmX - prev.x, palmY - prev.y)
      else Option.none
  let palmHistory1 := s.palmHistory ++ [⟨palmX, palmY, now⟩]
  let palmHistory2 := if palmHistory1.length > 20 then palmHistory1.drop 1 else palmHistory1
  let indexCurl := getFingerCurl lm INDEX_PIP INDEX_TIP
  let middleCurl := getFingerCurl lm MIDDLE_PIP MIDDLE_TIP
  let ringCurl := getFingerCurl lm RING_PIP RING_TIP
  let pinkyCurl := getFingerCurl lm PINKY_PIP PINKY_TIP
  let thumbExt := isThumbExtended lm
  let indexExtended := decide (indexCurl < 0.4)
  let middleExtended := decide (middleCurl < 0.4)
  let ringExtended := decide (ringCurl < 0.4)
  let pinkyExtended := decide (pinkyCurl < 0.4)
  let extendedCount :=
    ([thumbExt, indexExtended, middleExtended, ringExtended, pinkyExtended].filter
      (· = true)).length
  let pinchDist := dist (lm THUMB_TIP) (lm INDEX_TIP) / palmSize
  let twistActive1 := twistPoseStep s.twistPoseActive (twistScore lm)
  let handAngle := atan2 ((lm PINKY_MCP).y - (lm INDEX_MCP).y)
    ((lm PINKY_MCP).x - (lm INDEX_MCP).x)
  -- `hadPrevHandAngle` is read inside `angleFilter` as `s.prevHandAngle.isSome`
  let palmAxisDelta :=
    match s.prevHandAngle with
    | some p => wrapAngleDelta (handAngle - p)
    | Option.none => (0 : ℝ)
  let pinchAxisAngle := atan2 ((lm INDEX_TIP).y - (lm THUMB_TIP).y)
    ((lm INDEX_TIP).x - (lm THUMB_TIP).x)
  let pinchAxisDelta :=
    match s.prevPinchAxisAngle with
    | some p => wrapAngleDelta (pinchAxisAngle - p)
    | Option.none => (0 : ℝ)
  let angleStep := angleFilter s pinchDist palmAxisDelta pinchAxisDelta
  let rawOut := angleStep.1
  let angleDeltaOut := angleStep.2.1
  let filteredPinch := angleStep.2.2.1
  let angleHist := angleStep.2.2.2.1
  let filteredHand := angleStep.2.2.2.2
  let stateMid : RecState :=
    { s with
      palmHistory := palmHistory2
      prevHandAngle := some handAngle
      prevPinchAxisAngle := some pinchAxisAngle
      filteredPinchAxisDelta := filteredPinch
      angleDeltaHistory := angleHist
      filteredHandAngleDelta := filteredHand
      twistPoseActive := twistActive1 }
  let outBase : Output :=
    { gesture := Gesture.none
      confidence := 0
      handPosition := some (palmX, palmY)
      palmDelta := palmDelta
      handAngle := handAngle
      handAngleDelta := angleDeltaOut
      rawHandAngleDelta := rawOut
      twistPoseScore := twistScore lm
      twistPoseActive := twistActive1
      handsDetected := rest.length + 1
      twoHandDistance := Option.none
      twoHandDelta := 0
      fingerCurls := some (indexCurl, middleCurl, ringCurl, pinkyCurl, thumbExt) }
  match rest with
  | lm2 :: _ =>
    let rawDist := dist2D ((lm WRIST).x, (lm WRIST).y) ((lm2 WRIST).x, (lm2 WRIST).y)
    let sm : ℝ × ℝ :=
      match s.smoothTwoHandDist with
      | Option.none => (rawDist, 0)
      | some prevSmooth =>
        let v := prevSmooth + (rawDist - prevSmooth) * twoHandSmoothing
        (v, v - prevSmooth)
    let out1 := { outBase with twoHandDistance := some sm.1, twoHandDelta := sm.2 }
    let st1 := { stateMid with smoothTwoHandDist := some sm.1 }
    if |sm.2| > 0.003 then
      let rawGesture := if sm.2 > 0 then Gesture.spread else Gesture.squeeze
      stabilizeFinish st1 twistActive1 rawGesture
        { out1 with confidence := min 1 (|sm.2| * 15) }
    else
      finishSingle st1 now out1 twistActive1 (twistScore lm) pinchDist middleCurl
        indexExtended middleExtended ringExtended pinkyExtended extendedCount
  | [] =>
    let st1 := { stateMid with smoothTwoHandDist := Option.none }
    finishSingle st1 now outBase twistActive1 (twistScore lm) pinchDist middleCurl
      indexExtended middleExtended ringExtended pinkyExtended extendedCount

/-- `recognize(results)`: hand-loss reset when there is no result object or
no landmark list, otherwise the with-hands body on the primary hand. -/
noncomputable def recognize (s : RecState) (now : ℤ) (results : Option (List Hand)) :
    Output × RecState :=
  match results with
  | Option.none => (output0, resetState s)
  | some [] => (output0, resetState s)
  | some (lm :: rest) => recognizeHands s now lm rest

/-! ## BrainModel action surface

Only the state the controller reads or writes is modelled: rotation, rotation
targets, the clamped explosion target, the idle flag and the selection cursor.
All controller arithmetic is on decimal constants, so this part lives in `ℚ`
and is executable. -/

structure Brain where
  rotationX : ℚ
  rotationY : ℚ
  targetRotationX : ℚ
  targetRotationY : ℚ
  targetExplosion : ℚ
  isIdle : Bool
  regionCount : ℕ
  selectedIndex : ℤ
  selectedId : Option ℤ
deriving DecidableEq

/-- `setIdle(idle)`. -/
def Brain.setIdle (b : Brain) (idle : Bool) : Brain := { b with isIdle := idle }

/-- `setExplosion(amount)`: clamp the target to `[0, 1]`. -/
def Brain.setExplosion (b : Brain) (amount : ℚ) : Brain :=
  { b with targetExplosion := max 0 (min 1 amount) }

/-- `addExplosion(delta)`: add to the target, clamped to `[0, 1]`. -/
def Brain.addExplosion (b : Brain) (delta : ℚ) : Brain :=
  { b with targetExplosion := max 0 (min 1 (b.targetExplosion + delta)) }

/-- `highlightRegion(regionId)` restricted to selection bookkeeping; region
ids are modelled by their index in `regionList`, so `indexOf` is the identity
on valid ids and `null` maps the index to `-1`. -/
def Brain.highlightRegion (b : Brain) (regionId : Option ℤ) : Brain :=
  { b with
    selectedId := regionId
    selectedIndex :=
      match regionId with
      | Option.none => -1
      | some i => i }

/-- `selectNext()`: cycle the cursor forward and return the new selection
(`undefined`, i.e. `none`, when there are no regions). -/
def Brain.selectNext (b : Brain) : Option ℤ × Brain :=
  if b.regionCount = 0 then (Option.none, b)
  else
    let idx := (b.selectedIndex + 1) % (b.regionCount : ℤ)
    let b1 := { b with selectedIndex := idx }
    let b2 := b1.highlightRegion (some idx)
    (b2.selectedId, b2)

/-- `selectPrevious()`: cycle the cursor backward. -/
def Brain.selectPrevious (b : Brain) : Option ℤ × Brain :=
  if b.regionCount = 0 then (Option.none, b)
  else
    let idx := (b.selectedIndex - 1 + (b.regionCount : ℤ)) % (b.regionCount : ℤ)
    let b1 := { b with selectedIndex := idx }
    let b2 := b1.highlightRegion (some idx)
    (b2.selectedId, b2)

/-- `reset()`: clear the selection, the explosion target and both rotation
targets. -/
def Brain.reset (b : Brain) : Brain :=
  let b1 := b.highlightRegion Option.none
  { b1 with
    targetExplosion := 0
    targetRotationX := 0
    targetRotationY := 0 }

/-! ## GestureControls (twist-pose controller) -/

/-- `_twistSensitivity = 2.8`. -/
def twistSensitivity : ℚ := 2.8

/-- `_twistDeadZone = 0.0012`. -/
def twistDeadZone : ℚ := 0.0012

/-- `_twistAccel = 0.45`. -/
def twistAccel : ℚ := 0.45

/-- `_twistDecel = 0.15`. -/
def twistDecel : ℚ := 0.15

/-- `_tiltSensitivity = 2.2`. -/
def tiltSensitivity : ℚ := 2.2

/-- `_tiltSmoothing = 0.18`. -/
def tiltSmoothing : ℚ := 0.18

/-- `_maxTiltStep = 0.01`. -/
def maxTiltStep : ℚ := 0.01

/-- `_pinchCooldown = 700` ms. -/
def pinchCooldown : ℤ := 700

/-- `_fistHoldRequired = 800` ms. -/
def fistHoldRequired : ℤ := 800

/-- `_idleTimeout = 2500` ms. -/
def idleTimeout : ℤ := 2500

/-- `_expansionSmoothing = 0.3`. -/
def expansionSmoothing : ℚ := 0.3

/-- The fields of the `GestureSample` that `GestureControls.update` reads. -/
structure GSample where
  gesture : Gesture
  handsDetected : ℕ
  handAngleDelta : ℚ
  palmDelta : Option (ℚ × ℚ)
  twoHandDelta : ℚ
  twistPoseActive : Bool
deriving DecidableEq

/-- The mutable fields of `GestureControls` together with its brain model. -/
structure CState where
  brain : Brain
  currentGesture : Gesture
  gestureStartTime : ℤ
  gestureDuration : ℤ
  rotationVelocityY : ℚ
  smoothTiltDY : ℚ
  pinchTriggered : Bool
  lastPinchTime : ℤ
  fistTriggered : Bool
  lastFistTime : ℤ
  smoothExpansionDelta : ℚ
  lastActiveTime : ℤ
deriving DecidableEq

/-- Outward-visible requests issued during one `update` call: the arguments
of every `brain.setIdle` call in order, and whether `brain.reset()` ran. -/
structure Events where
  idleRequests : List Bool
  resetFired : Bool
deriving DecidableEq

def noEvents : Events := ⟨[], false⟩

def Events.merge (a b : Events) : Events :=
  ⟨a.idleRequests ++ b.idleRequests, a.resetFired || b.resetFired⟩

/-- The target Y velocity of `_handleRotation`: proportional to the twist
delta outside the dead zone, zero inside it. -/
def twistTargetVel (twistDelta : ℚ) : ℚ :=
  if |twistDelta| > twistDeadZone then twistDelta * twistSensitivity else 0

/-- `_handleRotation(data)`: uncapped Y velocity ramped toward the target by
`_twistAccel`, clamped X tilt from the vertical palm delta, then rotation
targets synced to the written rotation. -/
def handleRotation (s : CState) (g : GSample) : CState × Events :=
  let b0 := s.brain.setIdle false
  -- `data.handAngleDelta || 0` is the identity on ordinary numbers
  let twistDelta := g.handAngleDelta
  let targetVel := twistTargetVel twistDelta
  let vel := s.rotationVelocityY + (targetVel - s.rotationVelocityY) * twistAccel
  let b1 := { b0 with rotationY := b0.rotationY + vel }
  let ts : ℚ × Brain :=
    match g.palmDelta with
    | Option.none => (s.smoothTiltDY, b1)
    | some pd =>
      let tilt := s.smoothTiltDY + (pd.2 - s.smoothTiltDY) * tiltSmoothing
      if |tilt| > 0.0015 then
        let tiltStep := max (-maxTiltStep) (min maxTiltStep (tilt * tiltSensitivity))
        let rx := max (-0.8) (min 0.8 (b1.rotationX + tiltStep))
        (tilt, { b1 with rotationX := rx })
      else (tilt, b1)
  let b2 := ts.2
  let b3 := { b2 with
              targetRotationY := b2.rotationY
              targetRotationX := b2.rotationX }
  ({ s with
     brain := b3
     rotationVelocityY := vel
     smoothTiltDY := ts.1
     pinchTriggered := false
     fistTriggered := false },
   ⟨[false], false⟩)

/-- `_decayRotation()`: bleed velocity and tilt toward zero by `_twistDecel`,
apply the residual velocity while it is above the floor, and keep the brain's
rotation targets in sync. -/
def decayRotation (s : CState) : CState :=
  let vel := s.rotationVelocityY + (0 - s.rotationVelocityY) * twistDecel
  let tilt := s.smoothTiltDY + (0 - s.smoothTiltDY) * twistDecel
  let vb : ℚ × Brain :=
    if |vel| > 0.00005 then (vel, { s.brain with rotationY := s.brain.rotationY + vel })
    else (0, s.brain)
  let b := vb.2
  let b2 := { b with
              targetRotationY := b.rotationY
              targetRotationX := b.rotationX }
  { s with
    brain := b2
    rotationVelocityY := vb.1
    smoothTiltDY := tilt }

/-- `_handlePinch(now)`: one debounced selection advance per pinch instance,
subject to the 700 ms cooldown, with the auto-expand nudge. -/
def handlePinch (s : CState) (now : ℤ) : CState × Events :=
  if s.pinchTriggered = true then (s, noEvents)
  else if now - s.lastPinchTime < pinchCooldown then (s, noEvents)
  else
    let b0 := s.brain.setIdle false
    let sel := b0.selectNext
    let b1 := sel.2
    let b2 := if b1.targetExplosion < 0.15 then b1.setExplosion 0.2 else b1
    ({ s with
       pinchTriggered := true
       lastPinchTime := now
       brain := b2 },
     ⟨[false], false⟩)

/-- `_handleFist(now)`: reset fires only when the debounce flag is clear, the
gesture has been held for at least 800 ms and 1500 ms have passed since the
previous firing. -/
def handleFist (s : CState) (now : ℤ) : CState × Events :=
  if s.fistTriggered = true then (s, noEvents)
  else if s.gestureDuration < fistHoldRequired then (s, noEvents)
  else if now - s.lastFistTime < 1500 then (s, noEvents)
  else
    let b := (s.brain.reset).setIdle true
    ({ s with
       fistTriggered := true
       lastFistTime := now
       brain := b },
     ⟨[true], true⟩)

/-- `_handleExpansion(data, direction)`: smoothed, re-signed two-hand delta
applied to the explosion target with sensitivity 3.0. -/
def handleExpansion (s : CState) (g : GSample) (direction : ℚ) : CState × Events :=
  let b0 := s.brain.setIdle false
  let rawDelta := |g.twoHandDelta| * direction
  let sm := s.smoothExpansionDelta + (rawDelta - s.smoothExpansionDelta) * expansionSmoothing
  let b1 := b0.addExplosion (sm * 3.0)
  ({ s with
     brain := b1
     smoothExpansionDelta := sm
     pinchTriggered := false
     fistTriggered := false },
   ⟨[false], false⟩)

/-- `_handleSwipe(direction)`: cycle the selection (already debounced
upstream) with the auto-expand nudge. -/
def handleSwipe (s : CState) (direction : SwipeDir) : CState × Events :=
  let sel :=
    match direction with
    | SwipeDir.right => s.brain.selectNext
    | SwipeDir.left => s.brain.selectPrevious
  let b1 := sel.2
  let b2 := if b1.targetExplosion < 0.15 then b1.setExplosion 0.2 else b1
  ({ s with brain := b2 }, noEvents)

/-- Gesture-transition bookkeeping at the top of `update` (lines 66–75): on
a label change, clear the outgoing label's debounce flag (pinch/fist) and
restart the gesture timer; always refresh `gestureDuration`. -/
def transitionStep (s : CState) (now : ℤ) (g : GSample) : CState :=
  let s1 :=
    if g.gesture ≠ s.currentGesture then
      let sa := if s.currentGesture = Gesture.pinch then { s with pinchTriggered := false } else s
      let sb := if sa.currentGesture = Gesture.fist then { sa with fistTriggered := false } else sa
      { sb with
        currentGesture := g.gesture
        gestureStartTime := now }
    else s
  { s1 with gestureDuration := now - s1.gestureStartTime }

/-- `GestureControls.update(gestureData)` at time `now`: gesture-transition
bookkeeping, the no-hands branch (decay, flag clearing and, past the idle
timeout, a `setIdle(true)` request), and dispatch by gesture label. -/
def update (s : CState) (now : ℤ) (g : GSample) : CState × Events :=
  let s2 := transitionStep s now g
  if g.handsDetected = 0 then
    let s3 := decayRotation s2
    let s4 := { s3 with
                pinchTriggered := false
                fistTriggered := false }
    if now - s4.lastActiveTime > idleTimeout then
      ({ s4 with brain := s4.brain.setIdle true }, ⟨[true], false⟩)
    else (s4, noEvents)
  else
    let s3 := { s2 with lastActiveTime := now }
    match g.gesture with
    | Gesture.pinch =>
      let r1 := handlePinch s3 now
      let r2 := if g.twistPoseActive = true then handleRotation r1.1 g
                else (decayRotation r1.1, noEvents)
      (r2.1, r1.2.merge r2.2)
    | Gesture.fist => handleFist s3 now
    | Gesture.spread => handleExpansion s3 g 1
    | Gesture.squeeze => handleExpansion s3 g (-1)
    | Gesture.swipe_left => handleSwipe s3 SwipeDir.left
    | Gesture.swipe_right => handleSwipe s3 SwipeDir.right
    | Gesture.twist_pose => handleRotation s3 g
    | _ => (decayRotation s3, noEvents)

/-- Process a list of timestamped samples, collecting the per-frame events. -/
def runCtrl : CState → List (ℤ × GSample) → CState × List Events
  | s, [] => (s, [])
  | s, (t, g) :: rest =>
    let r := update s t g
    let rs := runCtrl r.1 rest
    (rs.1, r.2 :: rs.2)

/-- The brain model as built by its constructor (selection cleared, idle). -/
def initBrain : Brain :=
  { rotationX := 0
    rotationY := 0
    targetRotationX := 0
    targetRotationY := 0
    targetExplosion := 0
    isIdle := true
    regionCount := 10
    selectedIndex := -1
    selectedId := Option.none }

/-- The controller state as built by the `GestureControls` constructor. -/
def initCState : CState :=
  { brain := initBrain
    currentGesture := Gesture.none
    gestureStartTime := 0
    gestureDuration := 0
    rotationVelocityY := 0
    smoothTiltDY := 0
    pinchTriggered := false
    lastPinchTime := 0
    fistTriggered := false
    lastFistTime := 0
    smoothExpansionDelta := 0
    lastActiveTime := 0 }

/-- A one-hand sample carrying the `none` label (used in concrete runs). -/
def activeNoneSample : GSample :=
  ⟨Gesture.none, 1, 0, Option.none, 0, false⟩

/-- A zero-hands sample (used in concrete runs). -/
def noHandsSample : GSample :=
  ⟨Gesture.none, 0, 0, Option.none, 0, false⟩

/-- A one-hand `fist` sample (used in concrete runs). -/
def fistSample : GSample :=
  ⟨Gesture.fist, 1, 0, Option.none, 0, false⟩

/-- A one-hand `twist_pose` sample with a given twist delta. -/
def twistSample (d : ℚ) : GSample :=
  ⟨Gesture.twist_pose, 1, d, Option.none, 0, false⟩

/-- Four rightward palm-history entries 60 ms apart (`x` advancing by `0.1`
per frame); pushing a fifth entry `(0.4, 0)` at `t = 1240` yields a 240 ms
window of horizontal velocity `5/3 > 0.8`, firing a right swipe. -/
def swipeDemoHistory : List (PalmEntry ℚ) :=
  [⟨0, 0, 1000⟩, ⟨0.1, 0, 1060⟩, ⟨0.2, 0, 1120⟩, ⟨0.3, 0, 1180⟩]

/-! ## Theorems -/

/-- Case analysis of `wrapAngleDelta`: the two sequential corrections never
both fire, so the result is the input with `2π` subtracted once, added once,
or untouched. -/
theorem wrapAngleDelta_cases (delta : ℝ) :
    wrapAngleDelta delta =
      (if delta > Real.pi then delta - 2 * Real.pi
       else if delta < -Real.pi then delta + 2 * Real.pi
       else delta) := by
  have hpi := Real.pi_pos
  simp only [wrapAngleDelta]
  by_cases h1 : delta > Real.pi
  · rw [if_pos h1, if_neg (by linarith), if_pos h1]
  · rw [if_neg h1, if_neg h1]

/-- C2 counterexample: the claim quantifies over every real input, but
`wrapAngleDelta (4π) = 2π`, which exceeds `π` and therefore does not lie in
the claimed interval `(−π, π]`; only one `2π` correction is ever applied. -/
theorem C2_counterexample :
    wrapAngleDelta (4 * Real.pi) = 2 * Real.pi ∧ Real.pi < 2 * Real.pi := by
  have hpi := Real.pi_pos
  constructor
  · rw [wrapAngleDelta_cases, if_pos (by linarith)]
    ring
  · linarith

/-- C2 (amended): `wrapAngleDelta` adds or subtracts `2π` at most once for
every input; for inputs of magnitude at most `2π` — which covers every
difference of two `atan2` angles — the result lies in the closed interval
`[−π, π]` (the endpoint `−π` is attained at input `−π`, so the interval is
closed rather than half-open); and the seam pair `3.13 → −3.13` wraps to a
difference of magnitude below `0.1` rather than about `2π`. -/
theorem C2_wrapAngleDelta_amended :
    (∀ delta : ℝ,
        wrapAngleDelta delta = delta ∨ wrapAngleDelta delta = delta - 2 * Real.pi ∨
        wrapAngleDelta delta = delta + 2 * Real.pi) ∧
    (∀ delta : ℝ, |delta| ≤ 2 * Real.pi →
        -Real.pi ≤ wrapAngleDelta delta ∧ wrapAngleDelta delta ≤ Real.pi) ∧
    |wrapAngleDelta ((-3.13) - 3.13)| < 0.1 := by
  have hpi := Real.pi_pos
  refine ⟨?_, ?_, ?_⟩
  · intro delta
    rw [wrapAngleDelta_cases]
    by_cases h1 : delta > Real.pi
    · rw [if_pos h1]; right; left; rfl
    · rw [if_neg h1]
      by_cases h2 : delta < -Real.pi
      · rw [if_pos h2]; right; right; rfl
      · rw [if_neg h2]; left; rfl
  · intro delta h
    rw [abs_le] at h
    rw [wrapAngleDelta_cases]
    by_cases h1 : delta > Real.pi
    · rw [if_pos h1]
      constructor <;> linarith [h.2]
    · rw [if_neg h1]
      by_cases h2 : delta < -Real.pi
      · rw [if_pos h2]
        constructor <;> linarith [h.1]
      · rw [if_neg h2]
        constructor <;> linarith
  · have hlt := Real.pi_lt_d2
    have hgt := Real.pi_gt_d6
    have hv : ((-3.13 : ℝ)) - 3.13 = -6.26 := by norm_num
    rw [hv, wrapAngleDelta_cases, if_neg (by linarith), if_pos (by linarith)]
    rw [abs_lt]
    constructor <;> linarith

/-- C2 witness: the amended interval bound applied at input `0`. -/
theorem C2_wrapAngleDelta_amended_witness :
    |(0 : ℝ)| ≤ 2 * Real.pi ∧
      (-Real.pi ≤ wrapAngleDelta 0 ∧ wrapAngleDelta 0 ≤ Real.pi) := by
  have h : |(0 : ℝ)| ≤ 2 * Real.pi := by
    rw [abs_zero]
    positivity
  exact ⟨h, C2_wrapAngleDelta_amended.2.1 0 h⟩

/-- `_decayRotation` does not touch the idle timer. -/
theorem decayRotation_lastActiveTime (s : CState) :
    (decayRotation s).lastActiveTime = s.lastActiveTime := rfl

/-- The transition bookkeeping touches only the gesture label, the timer
fields and the debounce flags. -/
theorem transitionStep_preserved (s : CState) (now : ℤ) (g : GSample) :
    (transitionStep s now g).lastFistTime = s.lastFistTime ∧
    (transitionStep s now g).lastPinchTime = s.lastPinchTime ∧
    (transitionStep s now g).lastActiveTime = s.lastActiveTime ∧
    (transitionStep s now g).rotationVelocityY = s.rotationVelocityY ∧
    (transitionStep s now g).smoothTiltDY = s.smoothTiltDY ∧
    (transitionStep s now g).brain = s.brain ∧
    (transitionStep s now g).currentGesture = g.gesture := by
  simp only [transitionStep]
  split_ifs with h1 h2 h3 <;>
    refine ⟨rfl, rfl, rfl, rfl, rfl, rfl, ?_⟩ <;>
    first
      | rfl
      | exact (not_not.mp h1).symm

/-- C1 counterexample: a single no-hands episode (hands last seen at
`t = 1000`) in which the controller is updated at `t = 4000` and again at
`t = 4100`; both frames are past the 2500 ms timeout and `setIdle(true)` is
requested on each of them — i.e. more than once per episode. -/
theorem C1_counterexample :
    (update (update initCState 1000 activeNoneSample).1 4000 noHandsSample).2.idleRequests
        = [true] ∧
    (update (update (update initCState 1000 activeNoneSample).1 4000 noHandsSample).1
        4100 noHandsSample).2.idleRequests = [true] := by
  constructor <;> rfl

/-- C1 (amended): on a zero-hands update the controller requests
`setIdle(true)` precisely when `now − lastActiveTime` exceeds the 2500 ms
idle timeout — hence the request is re-issued on every frame of a no-hands
episode past the timeout, not exactly once per episode (no reset fires on
this path). -/
theorem C1_idle_request_amended :
    ∀ (s : CState) (now : ℤ) (g : GSample), g.handsDetected = 0 →
      (update s now g).2 =
        (if now - s.lastActiveTime > idleTimeout then ⟨[true], false⟩ else noEvents) := by
  intro s now g hg
  have hT := (transitionStep_preserved s now g).2.2.1
  simp only [update, hg, decayRotation, hT]
  split_ifs <;> rfl

/-- C1 witness: the amended characterization applied to a concrete frame
3000 ms after the last activity. -/
theorem C1_idle_request_amended_witness :
    noHandsSample.handsDetected = 0 ∧
      (update { initCState with lastActiveTime := 1000 } 4000 noHandsSample).2 =
        (if 4000 - ({ initCState with lastActiveTime := 1000 } : CState).lastActiveTime >
            idleTimeout then ⟨[true], false⟩ else noEvents) :=
  ⟨rfl, C1_idle_request_amended { initCState with lastActiveTime := 1000 } 4000
    noHandsSample rfl⟩

/-- C3: with the twist-pose flag inactive and a non-swipe raw label, the
stabilized output is the buffer's most frequent label exactly when its count
reaches the 3-of-5 consensus threshold and the previous stable label
otherwise; consequently five consecutive `open_palm` frames from the initial
state stabilize to `open_palm` from the 3rd frame onward, and the alternating
sequence `open_palm, fist, open_palm, fist, point` (every label at most twice
in the buffer) leaves the previous stable label in place on the final frame. -/
theorem C3_stabilization_majority :
    (∀ (raw : Gesture) (s : StabState),
        ¬(raw = Gesture.swipe_left ∨ raw = Gesture.swipe_right) →
        (stabilizeStep false raw s).1 =
          (if (bestOf (pushTrim s.buffer raw)).2 ≥ consensusThreshold
           then (bestOf (pushTrim s.buffer raw)).1
           else s.lastStable)) ∧
    (runStabilize false ⟨[], Gesture.none⟩
        [Gesture.open_palm, Gesture.open_palm, Gesture.open_palm, Gesture.open_palm,
         Gesture.open_palm]).1 =
      [Gesture.none, Gesture.none, Gesture.open_palm, Gesture.open_palm,
       Gesture.open_palm] ∧
    (∀ L : Gesture,
        (runStabilize false ⟨[], L⟩
          [Gesture.open_palm, Gesture.fist, Gesture.open_palm, Gesture.fist,
           Gesture.point]).1.getLast? = some L) := by
  refine ⟨?_, by decide, by decide⟩
  intro raw s hraw
  simp only [stabilizeStep]
  rw [if_neg hraw, if_neg (by simp)]

/-- C3 witness: the characterization applied to a concrete non-swipe frame
(`open_palm` pushed into an empty buffer). -/
theorem C3_stabilization_majority_witness :
    ¬(Gesture.open_palm = Gesture.swipe_left ∨ Gesture.open_palm = Gesture.swipe_right) ∧
      (stabilizeStep false Gesture.open_palm ⟨[], Gesture.none⟩).1 =
        (if (bestOf (pushTrim [] Gesture.open_palm)).2 ≥ consensusThreshold
         then (bestOf (pushTrim [] Gesture.open_palm)).1
         else Gesture.none) :=
  ⟨by decide, C3_stabilization_majority.1 Gesture.open_palm ⟨[], Gesture.none⟩ (by decide)⟩

/-- Per-frame law of the Y rotation velocity on a `twist_pose` frame with a
hand present: the velocity ramps toward `twistTargetVel` by `_twistAccel`. -/
theorem update_twist_velocity (s : CState) (now : ℤ) (g : GSample)
    (hg : g.gesture = Gesture.twist_pose) (hh : g.handsDetected ≠ 0) :
    (update s now g).1.rotationVelocityY =
      s.rotationVelocityY +
        (twistTargetVel g.handAngleDelta - s.rotationVelocityY) * twistAccel := by
  have hV := (transitionStep_preserved s now g).2.2.2.1
  simp only [update, hg, hh, handleRotation, if_false, ite_false, hV]

/-- C7: twist-driven Y rotation is proportional and uncapped.  Per frame the
velocity moves toward `handAngleDelta × 2.8` by the factor `0.45`; above the
dead zone the target is exactly `delta × sensitivity`; over any sustained
run of constant-delta twist frames the velocity follows the exact unclamped
geometric ramp toward `2.8 × d`; doubling a sustained above-dead-zone input
doubles the target (steady-state) velocity; and no bound caps it. -/
theorem C7_twist_velocity_unbounded :
    (∀ (s : CState) (now : ℤ) (g : GSample), g.gesture = Gesture.twist_pose →
        g.handsDetected ≠ 0 →
        (update s now g).1.rotationVelocityY =
          s.rotationVelocityY +
            (twistTargetVel g.handAngleDelta - s.rotationVelocityY) * twistAccel) ∧
    (∀ d : ℚ, |d| > twistDeadZone → twistTargetVel d = d * twistSensitivity) ∧
    (∀ (s : CState) (frames : List (ℤ × GSample)) (d : ℚ), |d| > twistDeadZone →
        (∀ p ∈ frames, p.2.gesture = Gesture.twist_pose ∧ p.2.handsDetected ≠ 0 ∧
          p.2.handAngleDelta = d) →
        (runCtrl s frames).1.rotationVelocityY =
          twistSensitivity * d +
            (s.rotationVelocityY - twistSensitivity * d) *
              (1 - twistAccel) ^ frames.length) ∧
    (∀ d : ℚ, |d| > twistDeadZone → twistTargetVel (2 * d) = 2 * twistTargetVel d) ∧
    (∀ B : ℚ, ∃ d : ℚ, |d| > twistDeadZone ∧ twistTargetVel d > B) := by
  have htv : ∀ d : ℚ, |d| > twistDeadZone → twistTargetVel d = d * twistSensitivity := by
    intro d hd
    simp [twistTargetVel, hd]
  refine ⟨update_twist_velocity, htv, ?_, ?_, ?_⟩
  · intro s frames d hd hframes
    induction frames generalizing s with
    | nil =>
      simp only [runCtrl, List.length_nil, pow_zero]
      ring
    | cons p rest ih =>
      obtain ⟨t, g⟩ := p
      have hp := hframes (t, g) (List.mem_cons_self _ _)
      have hrest : ∀ q ∈ rest, q.2.gesture = Gesture.twist_pose ∧
          q.2.handsDetected ≠ 0 ∧ q.2.handAngleDelta = d :=
        fun q hq => hframes q (List.mem_cons_of_mem _ hq)
      simp only [runCtrl]
      rw [ih _ hrest, update_twist_velocity s t g hp.1 hp.2.1, hp.2.2, htv d hd,
        List.length_cons]
      ring
  · intro d hd
    have h2 : |2 * d| > twistDeadZone := by
      rw [abs_mul]
      have hdz : (0 : ℚ) < twistDeadZone := by norm_num [twistDeadZone]
      have : |(2 : ℚ)| = 2 := by norm_num
      nlinarith [abs_nonneg d]
    rw [htv d hd, htv (2 * d) h2]
    ring
  · intro B
    have hm1 : (1 : ℚ) ≤ max 1 B := le_max_left 1 B
    have hmB : B ≤ max 1 B := le_max_right 1 B
    have habs : |max 1 B| = max 1 B := abs_of_nonneg (by linarith)
    have hdz : |max 1 B| > twistDeadZone := by
      rw [habs]
      norm_num [twistDeadZone]
    refine ⟨max 1 B, hdz, ?_⟩
    rw [htv _ hdz]
    have hsens : twistSensitivity = 2.8 := rfl
    nlinarith [hm1, hmB]

/-- C7 witness: the geometric-ramp clause applied to a concrete two-frame
run of constant twist input `d = 1` from the initial controller state. -/
theorem C7_twist_velocity_unbounded_witness :
    |(1 : ℚ)| > twistDeadZone ∧
      (∀ p ∈ [((0 : ℤ), twistSample 1), ((1 : ℤ), twistSample 1)],
        p.2.gesture = Gesture.twist_pose ∧ p.2.handsDetected ≠ 0 ∧
          p.2.handAngleDelta = 1) ∧
      (runCtrl initCState [((0 : ℤ), twistSample 1), ((1 : ℤ), twistSample 1)]).1.rotationVelocityY =
        twistSensitivity * 1 +
          (initCState.rotationVelocityY - twistSensitivity * 1) *
            (1 - twistAccel) ^
              ([((0 : ℤ), twistSample 1), ((1 : ℤ), twistSample 1)]).length := by
  have h1 : |(1 : ℚ)| > twistDeadZone := by norm_num [twistDeadZone]
  have h2 : ∀ p ∈ [((0 : ℤ), twistSample 1), ((1 : ℤ), twistSample 1)],
      p.2.gesture = Gesture.twist_pose ∧ p.2.handsDetected ≠ 0 ∧
        p.2.handAngleDelta = 1 := by decide
  exact ⟨h1, h2, C7_twist_velocity_unbounded.2.2.1 initCState _ 1 h1 h2⟩

/-- Stabilization does not touch the twist-pose flag. -/
theorem stabilizeFinish_twistPoseActive (st : RecState) (tw : Bool) (raw : Gesture)
    (out : Output) :
    (stabilizeFinish st tw raw out).2.twistPoseActive = st.twistPoseActive := rfl

/-- The swipe check and stabilization do not touch the twist-pose flag. -/
theorem finishSingle_twistPoseActive (st : RecState) (now : ℤ) (out : Output)
    (tw : Bool) (sc pd mc : ℝ) (iE mE rE pE : Bool) (ec : ℕ) :
    (finishSingle st now out tw sc pd mc iE mE rE pE ec).2.twistPoseActive =
      st.twistPoseActive := by
  simp only [finishSingle]
  rcases h : (detectSwipe now st.lastSwipeTime st.palmHistory).1 with _ | dir
  · simp [h, stabilizeFinish]
  · cases dir <;> simp [h, stabilizeFinish]

/-- On every frame with a hand present, the recognizer's stored twist-pose
flag after the frame equals the hysteresis update applied to the previous
flag and the frame's twist-pose score. -/
theorem recognizeHands_twistPoseActive (s : RecState) (now : ℤ) (lm : Hand)
    (rest : List Hand) :
    (recognizeHands s now lm rest).2.twistPoseActive =
      twistPoseStep s.twistPoseActive (twistScore lm) := by
  simp only [recognizeHands]
  cases rest with
  | nil => simp [finishSingle_twistPoseActive]
  | cons lm2 tl =>
    rcases hsm : s.smoothTwoHandDist with _ | pv <;>
      simp only [hsm] <;>
      split_ifs <;>
      simp [finishSingle_twistPoseActive, stabilizeFinish]

/-- C4: the twist-pose flag obeys the 0.58/0.42 hysteresis.  A score at or
above the enter threshold makes (or keeps) the flag active, a score below
the exit threshold makes (or keeps) it inactive, and any score inside the
band `[0.42, 0.58)` leaves the flag unchanged; the per-frame recognizer
update applies exactly this step; and once active the flag stays active
across arbitrarily many frames whose scores lie inside the band. -/
theorem C4_twist_hysteresis :
    (∀ (active : Bool) (score : ℝ),
        (score ≥ twistPoseEnterThreshold → twistPoseStep active score = true) ∧
        (score < twistPoseExitThreshold → twistPoseStep active score = false) ∧
        (twistPoseExitThreshold ≤ score → score < twistPoseEnterThreshold →
          twistPoseStep active score = active)) ∧
    (∀ (s : RecState) (now : ℤ) (lm : Hand) (rest : List Hand),
        (recognize s now (some (lm :: rest))).2.twistPoseActive =
          twistPoseStep s.twistPoseActive (twistScore lm)) ∧
    (∀ scores : List ℝ,
        (∀ x ∈ scores, twistPoseExitThreshold ≤ x ∧ x < twistPoseEnterThreshold) →
        scores.foldl twistPoseStep true = true) := by
  have hth : twistPoseExitThreshold < twistPoseEnterThreshold := by
    norm_num [twistPoseExitThreshold, twistPoseEnterThreshold]
  refine ⟨?_, ?_, ?_⟩
  · intro active score
    refine ⟨?_, ?_, ?_⟩
    · intro h
      cases active with
      | false => simp [twistPoseStep, h]
      | true =>
        have : ¬score < twistPoseExitThreshold := by linarith
        simp [twistPoseStep, this]
    · intro h
      cases active with
      | false =>
        have : ¬score ≥ twistPoseEnterThreshold := by linarith
        simp [twistPoseStep, this]
      | true => simp [twistPoseStep, h]
    · intro h1 h2
      cases active with
      | false =>
        have : ¬score ≥ twistPoseEnterThreshold := by linarith
        simp [twistPoseStep, this]
      | true =>
        have : ¬score < twistPoseExitThreshold := by linarith
        simp [twistPoseStep, this]
  · intro s now lm rest
    simpa [recognize] using recognizeHands_twistPoseActive s now lm rest
  · intro scores hband
    induction scores with
    | nil => rfl
    | cons x xs ih =>
      have hx := hband x (List.mem_cons_self _ _)
      have hxs : ∀ y ∈ xs, twistPoseExitThreshold ≤ y ∧ y < twistPoseEnterThreshold :=
        fun y hy => hband y (List.mem_cons_of_mem _ hy)
      have hstep : twistPoseStep true x = true := by
        have : ¬x < twistPoseExitThreshold := by linarith [hx.1]
        simp [twistPoseStep, this]
      simpa [List.foldl_cons, hstep] using ih hxs

/-- C4 witness: persistence through a concrete in-band score list, via the
third clause of the hysteresis theorem. -/
theorem C4_twist_hysteresis_witness :
    (∀ x ∈ [(0.5 : ℝ), 0.45, 0.57],
        twistPoseExitThreshold ≤ x ∧ x < twistPoseEnterThreshold) ∧
      ([(0.5 : ℝ), 0.45, 0.57].foldl twistPoseStep true = true) := by
  have h : ∀ x ∈ [(0.5 : ℝ), 0.45, 0.57],
      twistPoseExitThreshold ≤ x ∧ x < twistPoseEnterThreshold := by
    intro x hx
    simp only [List.mem_cons, List.mem_singleton, List.not_mem_nil, or_false] at hx
    rcases hx with h | h | h <;> subst h <;>
      norm_num [twistPoseExitThreshold, twistPoseEnterThreshold]
  exact ⟨h, C4_twist_hysteresis.2.2 _ h⟩

/-- C8: on a frame with no hands — a missing result object or an empty
landmark list — `recognize` performs the full reset: it clears the
palm-position history, the angle-delta history, the two-hand smoothing
state, both previous-angle states and their filters, the twist-pose flag
and the stabilization buffer, and returns the default sample with gesture
`none`, confidence `0` and zero hands detected.  `recognize` is a total
function, so this path never raises an error. -/
theorem C8_hand_loss_reset :
    ∀ (s : RecState) (now : ℤ),
      recognize s now Option.none = (output0, resetState s) ∧
      recognize s now (some []) = (output0, resetState s) ∧
      output0.gesture = Gesture.none ∧ output0.confidence = 0 ∧
      output0.handsDetected = 0 ∧
      (resetState s).palmHistory = [] ∧ (resetState s).angleDeltaHistory = [] ∧
      (resetState s).smoothTwoHandDist = Option.none ∧
      (resetState s).prevHandAngle = Option.none ∧
      (resetState s).prevPinchAxisAngle = Option.none ∧
      (resetState s).filteredHandAngleDelta = 0 ∧
      (resetState s).filteredPinchAxisDelta = 0 ∧
      (resetState s).twistPoseActive = false ∧
      (resetState s).gestureBuffer = [] := by
  intro s now
  exact ⟨rfl, rfl, rfl, rfl, rfl, rfl, rfl, rfl, rfl, rfl, rfl, rfl, rfl, rfl⟩

/-- Keys collected by the counting loop are exactly the buffer's members. -/
theorem mem_keysIn_aux (l : List Gesture) (ks : List Gesture) (x : Gesture) :
    x ∈ l.foldl (fun ks g => if g ∈ ks then ks else ks ++ [g]) ks ↔ x ∈ ks ∨ x ∈ l := by
  induction l generalizing ks with
  | nil => simp
  | cons g rest ih =>
    simp only [List.foldl_cons]
    by_cases hg : g ∈ ks
    · rw [if_pos hg, ih]
      constructor
      · rintro (h | h)
        · exact Or.inl h
        · exact Or.inr (List.mem_cons_of_mem _ h)
      · rintro (h | h)
        · exact Or.inl h
        · rcases List.mem_cons.mp h with h | h
          · exact Or.inl (h ▸ hg)
          · exact Or.inr h
    · rw [if_neg hg, ih]
      simp only [List.mem_append, List.mem_singleton, List.mem_cons]
      tauto

/-- The running best of the counting fold is zero or some label's count. -/
theorem bestOf_aux (buf : List Gesture) (ks : List Gesture) (init : Gesture × ℕ)
    (h : init.2 = 0 ∨ ∃ g, init.2 = buf.count g) :
    (ks.foldl (fun best g => if buf.count g > best.2 then (g, buf.count g) else best)
        init).2 = 0 ∨
      ∃ g, (ks.foldl (fun best g => if buf.count g > best.2 then (g, buf.count g) else best)
        init).2 = buf.count g := by
  induction ks generalizing init with
  | nil => exact h
  | cons k rest ih =>
    simp only [List.foldl_cons]
    by_cases hk : buf.count k > init.2
    · rw [if_pos hk]
      exact ih (k, buf.count k) (Or.inr ⟨k, rfl⟩)
    · rw [if_neg hk]
      exact ih init h

/-- If every label's count in the buffer is below `n > 0`, so is the best
count. -/
theorem bestOf_snd_lt (buf : List Gesture) (n : ℕ) (hn : 0 < n)
    (h : ∀ g, buf.count g < n) : (bestOf buf).2 < n := by
  rcases bestOf_aux buf (keysIn buf) (Gesture.none, 0) (Or.inl rfl) with h0 | ⟨g, hg⟩
  · unfold bestOf
    omega
  · unfold bestOf
    rw [hg]
    exact h g

/-- With the twist flag inactive and a non-swipe raw label, a step in which
no label reaches the consensus threshold outputs the previous stable label
and keeps it stored. -/
theorem stabilizeStep_below_threshold (raw : Gesture) (buf : List Gesture) (L : Gesture)
    (hraw : ¬(raw = Gesture.swipe_left ∨ raw = Gesture.swipe_right))
    (hc : ∀ g, (pushTrim buf raw).count g < consensusThreshold) :
    stabilizeStep false raw ⟨buf, L⟩ = (L, ⟨pushTrim buf raw, L⟩) := by
  have hbest : (bestOf (pushTrim buf raw)).2 < consensusThreshold :=
    bestOf_snd_lt _ _ (by norm_num [consensusThreshold]) hc
  simp only [stabilizeStep]
  rw [if_neg (not_le.mpr hbest), if_neg hraw, if_neg (by simp)]

/-- From a freshly cleared buffer with stored stable label `L`, a run of
non-swipe raw labels in which no label ever reaches the consensus threshold
outputs `L` on every frame. -/
theorem runStabilize_keeps_lastStable (L : Gesture) :
    ∀ (raws : List Gesture) (buf : List Gesture),
      (∀ r ∈ raws, ¬(r = Gesture.swipe_left ∨ r = Gesture.swipe_right)) →
      (∀ i < raws.length, ∀ g : Gesture,
        (bufferAfter buf (raws.take (i + 1))).count g < consensusThreshold) →
      (runStabilize false ⟨buf, L⟩ raws).1 = List.replicate raws.length L := by
  intro raws
  induction raws with
  | nil => intro buf _ _; rfl
  | cons r rest ih =>
    intro buf hs hc
    have hr := hs r (List.mem_cons_self _ _)
    have hrest : ∀ q ∈ rest, ¬(q = Gesture.swipe_left ∨ q = Gesture.swipe_right) :=
      fun q hq => hs q (List.mem_cons_of_mem _ hq)
    have hc0 : ∀ g : Gesture, (pushTrim buf r).count g < consensusThreshold := by
      intro g
      have := hc 0 (by simp) g
      simpa [bufferAfter] using this
    have hcrest : ∀ i < rest.length, ∀ g : Gesture,
        (bufferAfter (pushTrim buf r) (rest.take (i + 1))).count g < consensusThreshold := by
      intro i hi g
      have := hc (i + 1) (by simpa using Nat.succ_lt_succ hi) g
      simpa [bufferAfter, List.take_succ_cons, List.foldl_cons] using this
    have hstep := stabilizeStep_below_threshold r buf L hr hc0
    simp only [runStabilize, hstep, List.length_cons, List.replicate_succ]
    exact congrArg (L :: ·) (ih (pushTrim buf r) hrest hcrest)

/-- C10: the hand-loss reset clears the vote buffer but not the stored
stable label; therefore after reacquisition the stabilizer keeps emitting
the pre-loss label `L` until some raw label reaches 3 occurrences in the
fresh buffer (twist flag inactive, no swipes), and in particular the first
two frames after reacquisition always emit `L`. -/
theorem C10_lastStable_survives_loss :
    (∀ (s : RecState) (now : ℤ),
        (recognize s now Option.none).2.lastStableGesture = s.lastStableGesture ∧
        (recognize s now Option.none).2.gestureBuffer = []) ∧
    (∀ (L : Gesture) (raws : List Gesture),
        (∀ r ∈ raws, ¬(r = Gesture.swipe_left ∨ r = Gesture.swipe_right)) →
        (∀ i < raws.length, ∀ g : Gesture,
          (bufferAfter [] (raws.take (i + 1))).count g < consensusThreshold) →
        (runStabilize false ⟨[], L⟩ raws).1 = List.replicate raws.length L) ∧
    (∀ (L r1 r2 : Gesture),
        ¬(r1 = Gesture.swipe_left ∨ r1 = Gesture.swipe_right) →
        ¬(r2 = Gesture.swipe_left ∨ r2 = Gesture.swipe_right) →
        (runStabilize false ⟨[], L⟩ [r1, r2]).1 = [L, L]) := by
  refine ⟨fun s now => ⟨rfl, rfl⟩, fun L raws hs hc =>
    runStabilize_keeps_lastStable L raws [] hs hc, ?_⟩
  intro L r1 r2 h1 h2
  have hc : ∀ i < ([r1, r2] : List Gesture).length, ∀ g : Gesture,
      (bufferAfter [] (([r1, r2] : List Gesture).take (i + 1))).count g <
        consensusThreshold := by
    intro i hi g
    have hi2 : i < 2 := by simpa using hi
    interval_cases i
    · calc (bufferAfter [] [r1]).count g ≤ (bufferAfter [] [r1]).length :=
            List.count_le_length _ _
        _ < consensusThreshold := by simp [bufferAfter, pushTrim, consensusThreshold,
            stabilityBufferSize]
    · calc (bufferAfter [] [r1, r2]).count g ≤ (bufferAfter [] [r1, r2]).length :=
            List.count_le_length _ _
        _ < consensusThreshold := by simp [bufferAfter, pushTrim, consensusThreshold,
            stabilityBufferSize]
  have := runStabilize_keeps_lastStable L [r1, r2] [] (by
    intro q hq
    rcases List.mem_cons.mp hq with h | h
    · exact h ▸ h1
    · rcases List.mem_singleton.mp h with rfl
      exact h2) hc
  simpa using this

/-- C10 witness: two post-reacquisition frames with distinct non-swipe raw
labels emit the preserved stable label. -/
theorem C10_lastStable_survives_loss_witness :
    ¬(Gesture.open_palm = Gesture.swipe_left ∨ Gesture.open_palm = Gesture.swipe_right) ∧
    ¬(Gesture.fist = Gesture.swipe_left ∨ Gesture.fist = Gesture.swipe_right) ∧
    (runStabilize false ⟨[], Gesture.pinch⟩ [Gesture.open_palm, Gesture.fist]).1 =
      [Gesture.pinch, Gesture.pinch] :=
  ⟨by decide, by decide,
    C10_lastStable_survives_loss.2.2 Gesture.pinch Gesture.open_palm Gesture.fist
      (by decide) (by decide)⟩

/-- `_detectSwipe` either leaves the state untouched and reports nothing, or
fires: then at least 700 ms have passed since the last swipe, the cooldown
timer is set to the current time and the palm history is returned empty. -/
theorem detectSwipe_spec {α : Type} [LinearOrderedField α] (now lastSwipeTime : ℤ)
    (hist : List (PalmEntry α)) :
    detectSwipe now lastSwipeTime hist = (Option.none, lastSwipeTime, hist) ∨
    ((detectSwipe now lastSwipeTime hist).1.isSome = true ∧
      now - lastSwipeTime ≥ 700 ∧
      (detectSwipe now lastSwipeTime hist).2.1 = now ∧
      (detectSwipe now lastSwipeTime hist).2.2 = []) := by
  simp only [detectSwipe]
  split_ifs with h1 h2 h3 h4 h5
  all_goals first
    | exact Or.inl rfl
    | exact Or.inr ⟨rfl, by omega, rfl, rfl⟩

/-- One swipe-subsystem frame either does not fire and keeps the cooldown
timer, or fires with the cooldown respected, the timer reset to the frame
time and the history cleared. -/
theorem swipeFrameStep_spec {α : Type} [LinearOrderedField α] (st : SwipeState α)
    (now : ℤ) (px py : α) :
    ((swipeFrameStep st now px py).1 = Option.none ∧
      (swipeFrameStep st now px py).2.lastSwipeTime = st.lastSwipeTime) ∨
    ((swipeFrameStep st now px py).1.isSome = true ∧
      now - st.lastSwipeTime ≥ 700 ∧
      (swipeFrameStep st now px py).2.lastSwipeTime = now ∧
      (swipeFrameStep st now px py).2.palmHistory = []) := by
  rcases detectSwipe_spec now st.lastSwipeTime
      (if (st.palmHistory ++ [PalmEntry.mk px py now]).length > 20
       then (st.palmHistory ++ [PalmEntry.mk px py now]).drop 1
       else st.palmHistory ++ [PalmEntry.mk px py now]) with h | h
  · left
    constructor
    · simp only [swipeFrameStep]
      rw [h]
    · simp only [swipeFrameStep]
      rw [h]
  · right
    obtain ⟨hs, hc, hl, hh⟩ := h
    exact ⟨hs, hc, hl, hh⟩

/-- Across any run of swipe-subsystem frames the cooldown timer never
decreases, and every fired frame lies at least 700 ms after the timer's
initial value. -/
theorem runSwipe_cooldown {α : Type} [LinearOrderedField α] :
    ∀ (frames : List (ℤ × α × α)) (st : SwipeState α),
      st.lastSwipeTime ≤ (runSwipe st frames).2.lastSwipeTime ∧
      (∀ p ∈ frames.zip (runSwipe st frames).1, p.2.isSome = true →
        p.1.1 - st.lastSwipeTime ≥ 700) := by
  intro frames
  induction frames with
  | nil =>
    intro st
    exact ⟨le_refl _, by simp⟩
  | cons f rest ih =>
    intro st
    obtain ⟨t, px, py⟩ := f
    rcases swipeFrameStep_spec st t px py with ⟨hnone, hkeep⟩ | ⟨hsome, hc, hl, _⟩
    · constructor
      · calc st.lastSwipeTime = (swipeFrameStep st t px py).2.lastSwipeTime := hkeep.symm
          _ ≤ (runSwipe (swipeFrameStep st t px py).2 rest).2.lastSwipeTime :=
            (ih (swipeFrameStep st t px py).2).1
          _ = (runSwipe st ((t, px, py) :: rest)).2.lastSwipeTime := rfl
      · intro p hp hfired
        simp only [runSwipe, List.zip_cons_cons, List.mem_cons] at hp
        rcases hp with rfl | hp
        · rw [hnone] at hfired
          simp at hfired
        · have hrest := ((ih (swipeFrameStep st t px py).2).2 p hp) hfired
          rw [hkeep] at hrest
          exact hrest
    · constructor
      · calc st.lastSwipeTime ≤ t := by omega
          _ = (swipeFrameStep st t px py).2.lastSwipeTime := hl.symm
          _ ≤ (runSwipe (swipeFrameStep st t px py).2 rest).2.lastSwipeTime :=
            (ih (swipeFrameStep st t px py).2).1
      · intro p hp hfired
        simp only [runSwipe, List.zip_cons_cons, List.mem_cons] at hp
        rcases hp with rfl | hp
        · exact hc
        · have hrest := ((ih (swipeFrameStep st t px py).2).2 p hp) hfired
          rw [hl] at hrest
          omega

/-- C6: swipe events are debounced and discrete.  On any frame where the
swipe subsystem fires, the palm-position history is cleared, the cooldown
timer is reset to that frame's time, and at least 700 ms have passed since
the timer's previous value; across any run, every fired frame lies at least
700 ms after the initial timer value; and after a frame fires at time `t`,
no continuation of the run fires again before `t + 700` — regardless of the
palm motion supplied. -/
theorem C6_swipe_cooldown :
    (∀ {α : Type} [LinearOrderedField α] (st : SwipeState α) (now : ℤ) (px py : α),
        (swipeFrameStep st now px py).1.isSome = true →
        ((swipeFrameStep st now px py).2.palmHistory = [] ∧
          (swipeFrameStep st now px py).2.lastSwipeTime = now ∧
          now - st.lastSwipeTime ≥ 700)) ∧
    (∀ {α : Type} [LinearOrderedField α] (st : SwipeState α)
        (frames : List (ℤ × α × α)),
        ∀ p ∈ frames.zip (runSwipe st frames).1, p.2.isSome = true →
          p.1.1 - st.lastSwipeTime ≥ 700) ∧
    (∀ {α : Type} [LinearOrderedField α] (st : SwipeState α) (now : ℤ) (px py : α)
        (rest : List (ℤ × α × α)),
        (swipeFrameStep st now px py).1.isSome = true →
        ∀ q ∈ rest.zip (runSwipe (swipeFrameStep st now px py).2 rest).1,
          q.2.isSome = true → q.1.1 - now ≥ 700) := by
  have hstep : ∀ {α : Type} [LinearOrderedField α] (st : SwipeState α) (now : ℤ)
      (px py : α), (swipeFrameStep st now px py).1.isSome = true →
      ((swipeFrameStep st now px py).2.palmHistory = [] ∧
        (swipeFrameStep st now px py).2.lastSwipeTime = now ∧
        now - st.lastSwipeTime ≥ 700) := by
    intro α _ st now px py hfired
    rcases swipeFrameStep_spec st now px py with ⟨hnone, _⟩ | ⟨_, hc, hl, hh⟩
    · rw [hnone] at hfired
      simp at hfired
    · exact ⟨hh, hl, hc⟩
  refine ⟨hstep, ?_, ?_⟩
  · intro α _ st frames
    exact (runSwipe_cooldown frames st).2
  · intro α _ st now px py rest hfired q hq hqfired
    have hl := (hstep st now px py hfired).2.1
    have := (runSwipe_cooldown rest (swipeFrameStep st now px py).2).2 q hq hqfired
    rw [hl] at this
    exact this

/-- C6 witness: the step clause applied to the concrete four-entry rightward
history with a fifth sample pushed at `t = 1240`. -/
theorem C6_swipe_cooldown_witness :
    (swipeFrameStep (⟨swipeDemoHistory, 0⟩ : SwipeState ℚ) 1240 0.4 0).1.isSome = true ∧
      ((swipeFrameStep (⟨swipeDemoHistory, 0⟩ : SwipeState ℚ) 1240 0.4 0).2.palmHistory = [] ∧
        (swipeFrameStep (⟨swipeDemoHistory, 0⟩ : SwipeState ℚ) 1240 0.4 0).2.lastSwipeTime = 1240 ∧
        (1240 : ℤ) - (⟨swipeDemoHistory, 0⟩ : SwipeState ℚ).lastSwipeTime ≥ 700) := by
  have hfired : (swipeFrameStep (⟨swipeDemoHistory, 0⟩ : SwipeState ℚ) 1240 0.4 0).1.isSome
      = true := by
    norm_num [swipeFrameStep, detectSwipe, swipeDemoHistory, List.filter]
    rw [show |(5 : ℚ) / 3| = 5 / 3 by norm_num]
    norm_num
  exact ⟨hfired, C6_swipe_cooldown.1 _ 1240 0.4 0 hfired⟩

/-- `_decayRotation` does not touch the fist cooldown timer. -/
theorem decayRotation_lastFistTime (s : CState) :
    (decayRotation s).lastFistTime = s.lastFistTime := rfl

/-- `_handleRotation` never fires a reset and keeps the fist cooldown. -/
theorem handleRotation_spec (s : CState) (g : GSample) :
    (handleRotation s g).2.resetFired = false ∧
    (handleRotation s g).1.lastFistTime = s.lastFistTime := ⟨rfl, rfl⟩

/-- `_handleExpansion` never fires a reset and keeps the fist cooldown. -/
theorem handleExpansion_spec (s : CState) (g : GSample) (dir : ℚ) :
    (handleExpansion s g dir).2.resetFired = false ∧
    (handleExpansion s g dir).1.lastFistTime = s.lastFistTime := ⟨rfl, rfl⟩

/-- `_handleSwipe` never fires a reset and keeps the fist cooldown. -/
theorem handleSwipe_spec (s : CState) (dir : SwipeDir) :
    (handleSwipe s dir).2.resetFired = false ∧
    (handleSwipe s dir).1.lastFistTime = s.lastFistTime := ⟨rfl, rfl⟩

/-- `_handlePinch` never fires a reset and keeps the fist cooldown. -/
theorem handlePinch_spec (s : CState) (now : ℤ) :
    (handlePinch s now).2.resetFired = false ∧
    (handlePinch s now).1.lastFistTime = s.lastFistTime := by
  simp only [handlePinch]
  split_ifs <;> exact ⟨rfl, rfl⟩

/-- Characterization of `_handleFist`: it fires exactly when the debounce
flag is clear, the hold has lasted at least 800 ms and the 1500 ms cooldown
has elapsed; a non-firing call leaves the state untouched, and a firing call
sets the flag and the cooldown timer while preserving the gesture timer. -/
theorem handleFist_spec (s : CState) (now : ℤ) :
    ((handleFist s now).2.resetFired = true ↔
      (s.fistTriggered = false ∧ s.gestureDuration ≥ fistHoldRequired ∧
        now - s.lastFistTime ≥ 1500)) ∧
    ((handleFist s now).2.resetFired = false → (handleFist s now).1 = s) ∧
    ((handleFist s now).2.resetFired = true →
      (handleFist s now).1.fistTriggered = true ∧
      (handleFist s now).1.lastFistTime = now ∧
      (handleFist s now).1.currentGesture = s.currentGesture ∧
      (handleFist s now).1.gestureStartTime = s.gestureStartTime) := by
  simp only [handleFist]
  split_ifs with h1 h2 h3
  · refine ⟨?_, fun _ => rfl, fun hf => by simp [noEvents] at hf⟩
    simp [noEvents, h1]
  · refine ⟨?_, fun _ => rfl, fun hf => by simp [noEvents] at hf⟩
    simp only [noEvents]
    constructor
    · intro hf
      simp at hf
    · rintro ⟨-, hdur, -⟩
      omega
  · refine ⟨?_, fun _ => rfl, fun hf => by simp [noEvents] at hf⟩
    simp only [noEvents]
    constructor
    · intro hf
      simp at hf
    · rintro ⟨-, -, hcd⟩
      omega
  · refine ⟨?_, fun hf => by simp at hf, fun _ => ⟨rfl, rfl, rfl, rfl⟩⟩
    simp only [true_iff]
    refine ⟨by simpa using h1, by omega, by omega⟩

/-- In the no-hands branch no reset fires and the fist cooldown is kept. -/
theorem update_noHands_spec (s : CState) (now : ℤ) (g : GSample)
    (hg : g.handsDetected = 0) :
    (update s now g).2.resetFired = false ∧
    (update s now g).1.lastFistTime = s.lastFistTime := by
  have hT := (transitionStep_preserved s now g).1
  simp only [update, if_pos hg, decayRotation]
  constructor
  · split_ifs <;> rfl
  · split_ifs <;> simpa using hT

/-- In every `update` call, either no reset fires and `_lastFistTime` is
kept, or a reset fires, `_lastFistTime` is set to the frame time, and at
least 1500 ms have passed since its previous value. -/
theorem update_fist_fire_spec (s : CState) (now : ℤ) (g : GSample) :
    ((update s now g).2.resetFired = false ∧
      (update s now g).1.lastFistTime = s.lastFistTime) ∨
    ((update s now g).2.resetFired = true ∧
      (update s now g).1.lastFistTime = now ∧ now - s.lastFistTime ≥ 1500) := by
  by_cases hd : g.handsDetected = 0
  · exact Or.inl (update_noHands_spec s now g hd)
  · have hT := (transitionStep_preserved s now g).1
    cases hgg : g.gesture
    -- none
    · simp only [update, if_neg hd, hgg]
      exact Or.inl ⟨rfl, by simpa [decayRotation] using hT⟩
    -- pinch
    · simp only [update, if_neg hd, hgg]
      left
      by_cases htw : g.twistPoseActive = true
      · simp only [if_pos htw, Events.merge]
        constructor
        · simp [(handlePinch_spec _ now).1, (handleRotation_spec _ g).1]
        · rw [(handleRotation_spec _ g).2, (handlePinch_spec _ now).2]
          simpa using hT
      · simp only [if_neg htw, Events.merge]
        constructor
        · simp [(handlePinch_spec _ now).1, noEvents]
        · rw [decayRotation_lastFistTime, (handlePinch_spec _ now).2]
          simpa using hT
    -- fist
    · simp only [update, if_neg hd, hgg]
      have hspec := handleFist_spec { transitionStep s now g with lastActiveTime := now } now
      rcases hb : (handleFist { transitionStep s now g with lastActiveTime := now } now).2.resetFired
      · refine Or.inl ⟨rfl, ?_⟩
        rw [hspec.2.1 hb]
        simpa using hT
      · refine Or.inr ⟨rfl, (hspec.2.2 hb).2.1, ?_⟩
        have hcd := (hspec.1.mp hb).2.2
        have hfl : ({ transitionStep s now g with lastActiveTime := now } : CState).lastFistTime
            = s.lastFistTime := by simpa using hT
        omega
    -- point
    · simp only [update, if_neg hd, hgg]
      exact Or.inl ⟨rfl, by simpa [decayRotation] using hT⟩
    -- open_palm
    · simp only [update, if_neg hd, hgg]
      exact Or.inl ⟨rfl, by simpa [decayRotation] using hT⟩
    -- twist_pose
    · simp only [update, if_neg hd, hgg]
      refine Or.inl ⟨(handleRotation_spec _ g).1, ?_⟩
      rw [(handleRotation_spec _ g).2]
      simpa using hT
    -- spread
    · simp only [update, if_neg hd, hgg]
      refine Or.inl ⟨(handleExpansion_spec _ g 1).1, ?_⟩
      rw [(handleExpansion_spec _ g 1).2]
      simpa using hT
    -- squeeze
    · simp only [update, if_neg hd, hgg]
      refine Or.inl ⟨(handleExpansion_spec _ g (-1)).1, ?_⟩
      rw [(handleExpansion_spec _ g (-1)).2]
      simpa using hT
    -- swipe_left
    · simp only [update, if_neg hd, hgg]
      refine Or.inl ⟨(handleSwipe_spec _ SwipeDir.left).1, ?_⟩
      rw [(handleSwipe_spec _ SwipeDir.left).2]
      simpa using hT
    -- swipe_right
    · simp only [update, if_neg hd, hgg]
      refine Or.inl ⟨(handleSwipe_spec _ SwipeDir.right).1, ?_⟩
      rw [(handleSwipe_spec _ SwipeDir.right).2]
      simpa using hT

/-- On a label change, the gesture timer restarts and the fist flag is
cleared exactly when the outgoing label was `fist`. -/
theorem transitionStep_change (s : CState) (now : ℤ) (g : GSample)
    (h : g.gesture ≠ s.currentGesture) :
    (transitionStep s now g).gestureStartTime = now ∧
    (transitionStep s now g).gestureDuration = now - now ∧
    (transitionStep s now g).fistTriggered =
      (if s.currentGesture = Gesture.fist then false else s.fistTriggered) := by
  simp only [transitionStep, if_pos h]
  split_ifs with h2 h3 h4 <;> simp_all

/-- Without a label change, the transition step only refreshes the
duration. -/
theorem transitionStep_same (s : CState) (now : ℤ) (g : GSample)
    (h : g.gesture = s.currentGesture) :
    transitionStep s now g = { s with gestureDuration := now - s.gestureStartTime } := by
  simp [transitionStep, h]

/-- A fist frame with a hand present and no label change: reset fires iff
the flag is clear, the hold reached 800 ms and the cooldown elapsed; the
label and timer persist, and the flag/cooldown move exactly on a fire. -/
theorem update_fist_step (s : CState) (now : ℤ) (g : GSample)
    (hg : g.gesture = Gesture.fist) (hh : ¬g.handsDetected = 0)
    (hcur : s.currentGesture = Gesture.fist) :
    ((update s now g).2.resetFired = true ↔
      (s.fistTriggered = false ∧ now - s.gestureStartTime ≥ fistHoldRequired ∧
        now - s.lastFistTime ≥ 1500)) ∧
    (update s now g).1.currentGesture = Gesture.fist ∧
    (update s now g).1.gestureStartTime = s.gestureStartTime ∧
    ((update s now g).2.resetFired = true →
      (update s now g).1.fistTriggered = true ∧ (update s now g).1.lastFistTime = now) ∧
    ((update s now g).2.resetFired = false →
      (update s now g).1.fistTriggered = s.fistTriggered ∧
      (update s now g).1.lastFistTime = s.lastFistTime) := by
  have hsame := transitionStep_same s now g (by rw [hg, hcur])
  have hred : update s now g =
      handleFist { s with
        gestureDuration := now - s.gestureStartTime
        lastActiveTime := now } now := by
    simp only [update, if_neg hh, hg, hsame]
  rw [hred]
  have hspec := handleFist_spec { s with
    gestureDuration := now - s.gestureStartTime
    lastActiveTime := now } now
  refine ⟨hspec.1, ?_, ?_, fun hf => ⟨(hspec.2.2 hf).1, (hspec.2.2 hf).2.1⟩, fun hf => ?_⟩
  · rcases hb : (handleFist { s with
        gestureDuration := now - s.gestureStartTime
        lastActiveTime := now } now).2.resetFired
    · rw [hspec.2.1 hb]
      exact hcur
    · rw [(hspec.2.2 hb).2.2.1]
      exact hcur
  · rcases hb : (handleFist { s with
        gestureDuration := now - s.gestureStartTime
        lastActiveTime := now } now).2.resetFired
    · rw [hspec.2.1 hb]
    · rw [(hspec.2.2 hb).2.2.2]
  · rw [hspec.2.1 hf]
    exact ⟨rfl, rfl⟩

/-- The first frame of a fist episode (label change into `fist`, flag clear):
the label becomes `fist`, the timer restarts at the frame time, the flag and
cooldown are untouched, and no reset can fire (the hold is zero). -/
theorem update_fist_entry (s : CState) (now : ℤ) (g : GSample)
    (hg : g.gesture = Gesture.fist) (hh : ¬g.handsDetected = 0)
    (hcur : ¬s.currentGesture = Gesture.fist) (hft : s.fistTriggered = false) :
    (update s now g).1.currentGesture = Gesture.fist ∧
    (update s now g).1.gestureStartTime = now ∧
    (update s now g).1.fistTriggered = false ∧
    (update s now g).1.lastFistTime = s.lastFistTime ∧
    (update s now g).2.resetFired = false := by
  have hne : g.gesture ≠ s.currentGesture := by
    rw [hg]
    exact fun h => hcur h.symm
  have hch := transitionStep_change s now g hne
  have hpres := transitionStep_preserved s now g
  have hred : update s now g =
      handleFist { transitionStep s now g with lastActiveTime := now } now := by
    simp only [update, if_neg hh, hg]
  rw [hred]
  have hspec := handleFist_spec { transitionStep s now g with lastActiveTime := now } now
  have hbf : (handleFist { transitionStep s now g with lastActiveTime := now }
      now).2.resetFired = false := by
    rcases hb : (handleFist { transitionStep s now g with lastActiveTime := now }
        now).2.resetFired
    · rfl
    · exfalso
      have hdur := (hspec.1.mp hb).2.1
      have hde : ({ transitionStep s now g with lastActiveTime := now } : CState).gestureDuration
          = now - now := hch.2.1
      rw [hde] at hdur
      simp only [fistHoldRequired] at hdur
      omega
  rw [hbf, hspec.2.1 hbf]
  refine ⟨?_, hch.1, ?_, hpres.1, rfl⟩
  · rw [show ({ transitionStep s now g with lastActiveTime := now } : CState).currentGesture
        = (transitionStep s now g).currentGesture from rfl, hpres.2.2.2.2.2.2, hg]
  · rw [show ({ transitionStep s now g with lastActiveTime := now } : CState).fistTriggered
        = (transitionStep s now g).fistTriggered from rfl, hch.2.2, if_neg hcur]
    exact hft

/-- Induction over a continuous fist episode (label already `fist`, timer at
`t0`): the reset count is bounded by one (zero if the flag is already set);
every fire satisfies the 800 ms hold from `t0` and the 1500 ms cooldown from
the initial timer; an episode whose frames all lie below the hold never
fires; and once some frame meets hold and cooldown, exactly one fire
occurs. -/
theorem fist_episode (t0 : ℤ) :
    ∀ (frames : List (ℤ × GSample)) (s : CState),
      s.currentGesture = Gesture.fist → s.gestureStartTime = t0 →
      (∀ p ∈ frames, p.2.gesture = Gesture.fist ∧ ¬p.2.handsDetected = 0) →
      ((runCtrl s frames).2.countP (·.resetFired) ≤
        if s.fistTriggered = true then 0 else 1) ∧
      (∀ p ∈ frames.zip (runCtrl s frames).2, p.2.resetFired = true →
        p.1.1 - t0 ≥ fistHoldRequired ∧ p.1.1 - s.lastFistTime ≥ 1500) ∧
      ((∀ p ∈ frames, p.1 - t0 < fistHoldRequired) →
        (runCtrl s frames).2.countP (·.resetFired) = 0) ∧
      (s.fistTriggered = false →
        (∃ p ∈ frames, p.1 - t0 ≥ fistHoldRequired ∧ p.1 - s.lastFistTime ≥ 1500) →
        (runCtrl s frames).2.countP (·.resetFired) = 1) := by
  intro frames
  induction frames with
  | nil =>
    intro s hcur hst hall
    refine ⟨by simp [runCtrl], by simp [runCtrl], fun _ => by simp [runCtrl], ?_⟩
    rintro - ⟨p, hp, -⟩
    simp at hp
  | cons f rest ih =>
    intro s hcur hst hall
    obtain ⟨t, g⟩ := f
    have hf := hall (t, g) (List.mem_cons_self _ _)
    have hallr : ∀ q ∈ rest, q.2.gesture = Gesture.fist ∧ ¬q.2.handsDetected = 0 :=
      fun q hq => hall q (List.mem_cons_of_mem _ hq)
    obtain ⟨hiff, hcur', hst', hfirT, hfirF⟩ := update_fist_step s t g hf.1 hf.2 hcur
    have hrc2 : (runCtrl s ((t, g) :: rest)).2
        = (update s t g).2 :: (runCtrl (update s t g).1 rest).2 := rfl
    by_cases hfire : (update s t g).2.resetFired = true
    · obtain ⟨hft, hdur, hcd⟩ := hiff.mp hfire
      obtain ⟨hT, hL⟩ := hfirT hfire
      have ihr := ih (update s t g).1 hcur' (by rw [hst', hst]) hallr
      have hcount0 : (runCtrl (update s t g).1 rest).2.countP (·.resetFired) = 0 := by
        have h1 := ihr.1
        rw [hT] at h1
        simpa using h1
      have hnofire : ∀ e ∈ (runCtrl (update s t g).1 rest).2, ¬(e.resetFired = true) :=
        fun e he hc => by
          have := List.countP_eq_zero.mp hcount0 e he
          simp [hc] at this
      refine ⟨?_, ?_, ?_, ?_⟩
      · rw [hrc2, List.countP_cons, hcount0]
        simp [hfire, hft]
      · intro p hp hfired
        rw [hrc2, List.zip_cons_cons] at hp
        rcases List.mem_cons.mp hp with rfl | hp'
        · rw [hst] at hdur
          exact ⟨hdur, hcd⟩
        · exact absurd hfired (hnofire p.2 (List.of_mem_zip hp').2)
      · intro hbelow
        exfalso
        have hb := hbelow (t, g) (List.mem_cons_self _ _)
        rw [hst] at hdur
        omega
      · intro _ _
        rw [hrc2, List.countP_cons, hcount0]
        simp [hfire]
    · have hff : (update s t g).2.resetFired = false := by
        rcases hb : (update s t g).2.resetFired
        · rfl
        · exact absurd hb hfire
      obtain ⟨hTf, hLf⟩ := hfirF hff
      have ihr := ih (update s t g).1 hcur' (by rw [hst', hst]) hallr
      rw [hTf, hLf] at ihr
      refine ⟨?_, ?_, ?_, ?_⟩
      · rw [hrc2, List.countP_cons]
        simp only [hff]
        simpa using ihr.1
      · intro p hp hfired
        rw [hrc2, List.zip_cons_cons] at hp
        rcases List.mem_cons.mp hp with rfl | hp'
        · rw [hff] at hfired
          simp at hfired
        · exact ihr.2.1 p hp' hfired
      · intro hbelow
        have hrest := ihr.2.2.1 (fun q hq => hbelow q (List.mem_cons_of_mem _ hq))
        rw [hrc2, List.countP_cons, hrest]
        simp [hff]
      · intro hftS hex
        rcases hex with ⟨p, hp, hq⟩
        rcases List.mem_cons.mp hp with rfl | hp'
        · exfalso
          apply hfire
          apply hiff.mpr
          refine ⟨hftS, ?_, hq.2⟩
          rw [hst]
          exact hq.1
        · have hrest := ihr.2.2.2 hftS ⟨p, hp', hq⟩
          rw [hrc2, List.countP_cons, hrest]
          simp [hff]

/-- Across any run of controller frames, the fist cooldown timer never
decreases and every reset fire happens at least 1500 ms after the timer's
initial value. -/
theorem runCtrl_fist_cooldown :
    ∀ (frames : List (ℤ × GSample)) (s : CState),
      s.lastFistTime ≤ (runCtrl s frames).1.lastFistTime ∧
      (∀ p ∈ frames.zip (runCtrl s frames).2, p.2.resetFired = true →
        p.1.1 - s.lastFistTime ≥ 1500) := by
  intro frames
  induction frames with
  | nil =>
    intro s
    exact ⟨le_refl _, by simp⟩
  | cons f rest ih =>
    intro s
    obtain ⟨t, g⟩ := f
    have hrc2 : (runCtrl s ((t, g) :: rest)).2
        = (update s t g).2 :: (runCtrl (update s t g).1 rest).2 := rfl
    have hrc1 : (runCtrl s ((t, g) :: rest)).1 = (runCtrl (update s t g).1 rest).1 := rfl
    rcases update_fist_fire_spec s t g with ⟨hff, hkeep⟩ | ⟨hfire, hset, hcd⟩
    · constructor
      · rw [hrc1]
        calc s.lastFistTime = (update s t g).1.lastFistTime := hkeep.symm
          _ ≤ _ := (ih (update s t g).1).1
      · intro p hp hfired
        rw [hrc2, List.zip_cons_cons] at hp
        rcases List.mem_cons.mp hp with rfl | hp'
        · rw [hff] at hfired
          simp at hfired
        · have h := (ih (update s t g).1).2 p hp' hfired
          rw [hkeep] at h
          exact h
    · constructor
      · rw [hrc1]
        have h1 := (ih (update s t g).1).1
        rw [hset] at h1
        omega
      · intro p hp hfired
        rw [hrc2, List.zip_cons_cons] at hp
        rcases List.mem_cons.mp hp with rfl | hp'
        · exact hcd
        · have h := (ih (update s t g).1).2 p hp' hfired
          rw [hset] at h
          omega

/-- C5: fist-driven reset timing.  Starting outside a fist (debounce flag
clear), over a continuous fist episode beginning at `t0`: (a) if every frame
lies strictly below the 800 ms hold, reset never fires; (b) at most one
reset fires in the episode, and every fire satisfies both the 800 ms hold
from `t0` and the 1500 ms cooldown from the initial `lastFistTime`; (c) once
some frame meets hold and cooldown, reset fires exactly once; and (d) in any
run whatsoever, every fire happens at least 1500 ms after the initial
`lastFistTime` — so a subsequent fist cannot re-fire within 1500 ms of the
previous firing. -/
theorem C5_fist_hold_and_cooldown :
    (∀ (s : CState) (t0 : ℤ) (g0 : GSample) (rest : List (ℤ × GSample)),
        ¬s.currentGesture = Gesture.fist → s.fistTriggered = false →
        (∀ p ∈ (t0, g0) :: rest, p.2.gesture = Gesture.fist ∧ ¬p.2.handsDetected = 0) →
        ((∀ p ∈ (t0, g0) :: rest, p.1 - t0 < fistHoldRequired) →
          (runCtrl s ((t0, g0) :: rest)).2.countP (·.resetFired) = 0) ∧
        (runCtrl s ((t0, g0) :: rest)).2.countP (·.resetFired) ≤ 1 ∧
        (∀ p ∈ ((t0, g0) :: rest).zip (runCtrl s ((t0, g0) :: rest)).2,
          p.2.resetFired = true →
            p.1.1 - t0 ≥ fistHoldRequired ∧ p.1.1 - s.lastFistTime ≥ 1500) ∧
        ((∃ p ∈ rest, p.1 - t0 ≥ fistHoldRequired ∧ p.1 - s.lastFistTime ≥ 1500) →
          (runCtrl s ((t0, g0) :: rest)).2.countP (·.resetFired) = 1)) ∧
    (∀ (frames : List (ℤ × GSample)) (s : CState),
        ∀ p ∈ frames.zip (runCtrl s frames).2, p.2.resetFired = true →
          p.1.1 - s.lastFistTime ≥ 1500) := by
  constructor
  · intro s t0 g0 rest hcur hft hall
    have hf0 := hall (t0, g0) (List.mem_cons_self _ _)
    obtain ⟨hc1, hs1, hT1, hL1, hE1⟩ := update_fist_entry s t0 g0 hf0.1 hf0.2 hcur hft
    have hallr : ∀ q ∈ rest, q.2.gesture = Gesture.fist ∧ ¬q.2.handsDetected = 0 :=
      fun q hq => hall q (List.mem_cons_of_mem _ hq)
    have hep := fist_episode t0 rest (update s t0 g0).1 hc1 hs1 hallr
    rw [hT1, hL1] at hep
    have hrc2 : (runCtrl s ((t0, g0) :: rest)).2
        = (update s t0 g0).2 :: (runCtrl (update s t0 g0).1 rest).2 := rfl
    refine ⟨?_, ?_, ?_, ?_⟩
    · intro hbelow
      have hrest := hep.2.2.1 (fun q hq => hbelow q (List.mem_cons_of_mem _ hq))
      rw [hrc2, List.countP_cons, hrest]
      simp [hE1]
    · have h1 : (runCtrl (update s t0 g0).1 rest).2.countP (·.resetFired) ≤ 1 := by
        simpa using hep.1
      rw [hrc2, List.countP_cons]
      simp only [hE1]
      simpa using h1
    · intro p hp hfired
      rw [hrc2, List.zip_cons_cons] at hp
      rcases List.mem_cons.mp hp with rfl | hp'
      · rw [hE1] at hfired
        simp at hfired
      · exact hep.2.1 p hp' hfired
    · intro hex
      have hrest := hep.2.2.2 rfl hex
      rw [hrc2, List.countP_cons, hrest]
      simp [hE1]
  · intro frames s
    exact (runCtrl_fist_cooldown frames s).2

/-- C5 witness: a fist entered at `t = 1000` and still held at `t = 1801`
(801 ms ≥ 800 ms, cooldown long elapsed) fires reset exactly once. -/
theorem C5_fist_hold_and_cooldown_witness :
    ¬initCState.currentGesture = Gesture.fist ∧
    initCState.fistTriggered = false ∧
    (∀ p ∈ ((1000 : ℤ), fistSample) :: [((1801 : ℤ), fistSample)],
      p.2.gesture = Gesture.fist ∧ ¬p.2.handsDetected = 0) ∧
    (∃ p ∈ [((1801 : ℤ), fistSample)], p.1 - 1000 ≥ fistHoldRequired ∧
      p.1 - initCState.lastFistTime ≥ 1500) ∧
    (runCtrl initCState (((1000 : ℤ), fistSample) :: [((1801 : ℤ), fistSample)])).2.countP
      (·.resetFired) = 1 := by
  have h1 : ¬initCState.currentGesture = Gesture.fist := by decide
  have h2 : initCState.fistTriggered = false := rfl
  have h3 : ∀ p ∈ ((1000 : ℤ), fistSample) :: [((1801 : ℤ), fistSample)],
      p.2.gesture = Gesture.fist ∧ ¬p.2.handsDetected = 0 := by decide
  have h4 : ∃ p ∈ [((1801 : ℤ), fistSample)], p.1 - 1000 ≥ fistHoldRequired ∧
      p.1 - initCState.lastFistTime ≥ 1500 :=
    ⟨((1801 : ℤ), fistSample), by decide, by decide⟩
  exact ⟨h1, h2, h3, h4,
    (C5_fist_hold_and_cooldown.1 initCState 1000 fistSample
      [((1801 : ℤ), fistSample)] h1 h2 h3).2.2.2 h4⟩

/-- Distances are square roots, hence nonnegative. -/
theorem dist_nonneg (a b : P3) : 0 ≤ dist a b := Real.sqrt_nonneg _

/-- The palm size is strictly positive thanks to the `|| 0.001` floor. -/
theorem getPalmSize_pos (lm : Hand) : 0 < getPalmSize lm := by
  simp only [getPalmSize]
  split_ifs with h
  · norm_num
  · exact lt_of_le_of_ne (dist_nonneg _ _) (Ne.symm h)

/-- The twist-pose score is clamped to the unit interval. -/
theorem twistScore_mem (lm : Hand) : 0 ≤ twistScore lm ∧ twistScore lm ≤ 1 := by
  unfold twistScore
  exact clamp_le _ 0 1 (by norm_num)

/-- Stabilization rewrites only the gesture label, not the confidence. -/
theorem stabilizeFinish_confidence (st : RecState) (tw : Bool) (raw : Gesture)
    (out : Output) : (stabilizeFinish st tw raw out).1.confidence = out.confidence := rfl

/-- Every confidence assigned by the single-hand priority chain lies in
`[0, 1]`, given the geometric facts about its inputs. -/
theorem classifySingle_confidence (tw : Bool) (score pinchDist middleCurl : ℝ)
    (iE mE rE pE : Bool) (ec : ℕ)
    (hp : 0 ≤ pinchDist) (hs0 : 0 ≤ score) (hs1 : score ≤ 1) (hec : ec ≤ 5) :
    0 ≤ (classifySingle tw score pinchDist middleCurl iE mE rE pE ec).2 ∧
    (classifySingle tw score pinchDist middleCurl iE mE rE pE ec).2 ≤ 1 := by
  unfold classifySingle
  split_ifs with h1 h2 h3 h4 h5
  · constructor
    · exact le_max_left _ _
    · apply max_le (by norm_num)
      have hq : 0 ≤ pinchDist / 0.35 := by positivity
      linarith
  · have hec1 : (ec : ℝ) ≤ 1 := by exact_mod_cast h2.1
    have hec0 : (0 : ℝ) ≤ (ec : ℝ) := Nat.cast_nonneg ec
    constructor <;> linarith
  · exact ⟨hs0, hs1⟩
  · norm_num
  · have h3' : (3 : ℝ) ≤ (ec : ℝ) := by exact_mod_cast h5
    have h5' : (ec : ℝ) ≤ 5 := by exact_mod_cast hec
    constructor
    · positivity
    · linarith
  · norm_num

/-- The single-hand tail (classification, swipe override, stabilization)
produces a confidence in `[0, 1]`. -/
theorem finishSingle_confidence (st : RecState) (now : ℤ) (out : Output)
    (tw : Bool) (score pinchDist middleCurl : ℝ) (iE mE rE pE : Bool) (ec : ℕ)
    (hp : 0 ≤ pinchDist) (hs0 : 0 ≤ score) (hs1 : score ≤ 1) (hec : ec ≤ 5) :
    0 ≤ (finishSingle st now out tw score pinchDist middleCurl iE mE rE pE ec).1.confidence ∧
    (finishSingle st now out tw score pinchDist middleCurl iE mE rE pE ec).1.confidence ≤ 1 := by
  unfold finishSingle
  rcases hsw : (detectSwipe now st.lastSwipeTime st.palmHistory).1 with _ | dir
  · simp only [hsw, stabilizeFinish_confidence]
    exact classifySingle_confidence tw score pinchDist middleCurl iE mE rE pE ec
      hp hs0 hs1 hec
  · cases dir <;> simp only [hsw, stabilizeFinish_confidence] <;> norm_num

/-- The with-hands body of `recognize` produces a confidence in `[0, 1]`:
the two-hand branch caps at `min 1 ·`, and every single-hand branch is
covered by `classifySingle_confidence`. -/
theorem recognizeHands_confidence (s : RecState) (now : ℤ) (lm : Hand)
    (rest : List Hand) :
    0 ≤ (recognizeHands s now lm rest).1.confidence ∧
    (recognizeHands s now lm rest).1.confidence ≤ 1 := by
  have hp : 0 ≤ dist (lm THUMB_TIP) (lm INDEX_TIP) / getPalmSize lm :=
    div_nonneg (dist_nonneg _ _) (getPalmSize_pos lm).le
  have hts := twistScore_mem lm
  have hec : ([isThumbExtended lm, decide (getFingerCurl lm INDEX_PIP INDEX_TIP < 0.4),
      decide (getFingerCurl lm MIDDLE_PIP MIDDLE_TIP < 0.4),
      decide (getFingerCurl lm RING_PIP RING_TIP < 0.4),
      decide (getFingerCurl lm PINKY_PIP PINKY_TIP < 0.4)].filter (· = true)).length ≤ 5 := by
    apply le_trans (List.length_filter_le _ _)
    simp
  unfold recognizeHands
  cases rest with
  | nil =>
    exact finishSingle_confidence _ now _ _ _ _ _ _ _ _ _ _ hp hts.1 hts.2 hec
  | cons lm2 tl =>
    rcases hsm : s.smoothTwoHandDist with _ | pv <;>
      simp only [hsm] <;>
      split_ifs <;>
      first
        | exact finishSingle_confidence _ now _ _ _ _ _ _ _ _ _ _ hp hts.1 hts.2 hec
        | (rw [stabilizeFinish_confidence]
           constructor
           · exact le_min (by norm_num) (by positivity)
           · exact min_le_left _ _)

/-- C9: on every frame and from every recognizer state, the confidence of
the returned `GestureSample` lies in `[0, 1]` — across the zero-hands
default, the two-hand spread/squeeze branch, every single-hand branch
(pinch, fist, twist pose, point, open palm, none) and the swipe override. -/
theorem C9_confidence_in_unit_interval :
    ∀ (s : RecState) (now : ℤ) (results : Option (List Hand)),
      0 ≤ (recognize s now results).1.confidence ∧
      (recognize s now results).1.confidence ≤ 1 := by
  intro s now results
  match results with
  | Option.none => exact ⟨le_refl 0, zero_le_one⟩
  | some [] => exact ⟨le_refl 0, zero_le_one⟩
  | some (lm :: rest) => exact recognizeHands_confidence s now lm rest

end IBrain
